import Mathlib

/-!
Verification of the printer-control job queue and agent
(`backend/printer-control/src/printer_control/{models,queue,agent}.py`).

The Python classes are embedded shallowly: Pydantic models become
structures, in-place mutation becomes explicit state passing, the
re-entrant lock disappears (all operations are modelled as atomic
steps on the queue value), `datetime.utcnow()` becomes an explicit
`now : Nat` argument, and raised exceptions become `Except` results
(with totalised wrappers that leave the state unchanged where the
Python exception would propagate before mutating).
-/

namespace LeSing

/-- `PrintJobStatus` from `models.py`: print job lifecycle states. -/
inductive PrintJobStatus
  | pending
  | uploading
  | starting
  | printing
  | retrying
  | completed
  | failed
  | cancelled
  | error
deriving DecidableEq

/-- A filesystem path value (`pathlib.Path`), kept abstract as its string. -/
structure FPath where
  path : String
deriving DecidableEq

/-- `PrintJob` from `models.py`: print job metadata and state.
Numeric fields are embedded as `Nat`/`Int`; timestamps as `Nat` ticks. -/
structure PrintJob where
  job_id : String
  gcode_path : FPath
  printer_id : Option String := none
  name : Option String := none
  description : Option String := none
  priority : Int := 0
  design_id : Option String := none
  customer_id : Option String := none
  status : PrintJobStatus := .pending
  progress : Nat := 0
  current_layer : Option Nat := none
  total_layers : Option Nat := none
  created_at : Nat := 0
  started_at : Option Nat := none
  completed_at : Option Nat := none
  estimated_duration_seconds : Option Nat := none
  actual_duration_seconds : Option Nat := none
  retry_count : Nat := 0
  max_retries : Nat := 3
  error_message : Option String := none
  error_code : Option String := none
deriving DecidableEq

/-- `PrintJob.is_terminal`: true iff the job is in a terminal state. -/
def PrintJob.is_terminal (j : PrintJob) : Bool :=
  match j.status with
  | .completed | .failed | .cancelled | .error => true
  | _ => false

/-- `PrintJob.can_retry`: status in {FAILED, ERROR} and retry_count < max_retries. -/
def PrintJob.can_retry (j : PrintJob) : Bool :=
  (match j.status with
   | .failed | .error => true
   | _ => false)
  && decide (j.retry_count < j.max_retries)

/-- `QueueState` from `models.py`: the four job-id lists plus metadata. -/
structure QueueState where
  pending : List String := []
  active : List String := []
  completed : List String := []
  failed : List String := []
  version : Nat := 1
  last_modified : Nat := 0
deriving DecidableEq

/-- `QueueState.total_jobs`. -/
def QueueState.total_jobs (s : QueueState) : Nat :=
  s.pending.length + s.active.length + s.completed.length + s.failed.length

/-- `QueueState.next_job`: head of the pending list, if any. -/
def QueueState.next_job (s : QueueState) : Option String :=
  s.pending.head?

/-- `QueueState.add_job`: append to pending when not already present. -/
def QueueState.add_job (s : QueueState) (job_id : String) (now : Nat) : QueueState :=
  if job_id ∈ s.pending then s
  else { s with pending := s.pending ++ [job_id], last_modified := now }

/-- `QueueState.move_to_active`: move a job id from pending to active.
`list.remove` in Python removes the first occurrence, i.e. `List.erase`. -/
def QueueState.move_to_active (s : QueueState) (job_id : String) (now : Nat) :
    Bool × QueueState :=
  if job_id ∈ s.pending then
    (true, { s with pending := s.pending.erase job_id,
                    active := s.active ++ [job_id],
                    last_modified := now })
  else (false, s)

/-- `QueueState.move_to_completed`: move a job id from active to completed. -/
def QueueState.move_to_completed (s : QueueState) (job_id : String) (now : Nat) :
    Bool × QueueState :=
  if job_id ∈ s.active then
    (true, { s with active := s.active.erase job_id,
                    completed := s.completed ++ [job_id],
                    last_modified := now })
  else (false, s)

/-- `QueueState.move_to_failed`: remove the id from active (or, failing that,
pending), then append it to failed when not already there. -/
def QueueState.move_to_failed (s : QueueState) (job_id : String) (now : Nat) :
    Bool × QueueState :=
  let s1 :=
    if job_id ∈ s.active then { s with active := s.active.erase job_id }
    else if job_id ∈ s.pending then { s with pending := s.pending.erase job_id }
    else s
  if job_id ∈ s1.failed then (false, s1)
  else (true, { s1 with failed := s1.failed ++ [job_id], last_modified := now })

/-- Membership count of a job id over the four lists (1 = in exactly one list). -/
def QueueState.memCount (s : QueueState) (id : String) : Nat :=
  (if id ∈ s.pending then 1 else 0) + (if id ∈ s.active then 1 else 0)
    + (if id ∈ s.completed then 1 else 0) + (if id ∈ s.failed then 1 else 0)

/-- The `PrintQueue._jobs` dict: an association list keyed by job id
(Python dicts preserve insertion order, which `save` serialises). -/
def lookupJob (m : List (String × PrintJob)) (id : String) : Option PrintJob :=
  match m with
  | [] => none
  | (k, j) :: rest => if k = id then some j else lookupJob rest id

/-- Dict assignment `m[id] = j`: replace in place if present, else append. -/
def setJob (m : List (String × PrintJob)) (id : String) (j : PrintJob) :
    List (String × PrintJob) :=
  match m with
  | [] => [(id, j)]
  | (k, j') :: rest => if k = id then (k, j) :: rest else (k, j') :: setJob rest id j

/-- Dict `m.pop(id, None)`: drop the entry if present. -/
def popJob (m : List (String × PrintJob)) (id : String) : List (String × PrintJob) :=
  match m with
  | [] => []
  | (k, j') :: rest => if k = id then rest else (k, j') :: popJob rest id

/-- `PrintQueue` from `queue.py`: record map plus `QueueState`. -/
structure PrintQueue where
  jobs : List (String × PrintJob) := []
  state : QueueState := {}
deriving DecidableEq

/-- A freshly constructed queue over an empty store. -/
def emptyQueue : PrintQueue := {}

/-- Errors raised by queue operations (`ValidationError` / `QueueError`). -/
inductive QueueOpError
  | validationError (msg : String)
  | queueError (msg : String)
deriving DecidableEq

/-- `PrintQueue.enqueue`: reject duplicates, store the record, then route the
id into a list by status.  PENDING jobs with priority > 0 are inserted at the
front of pending; priority 0 appends FIFO via `add_job`; UPLOADING/STARTING/
PRINTING go to active, COMPLETED to completed, FAILED/ERROR/CANCELLED to
failed; a RETRYING job is stored but joins no list (no branch matches). -/
def PrintQueue.enqueue (q : PrintQueue) (job : PrintJob) (now : Nat) :
    Except QueueOpError PrintQueue :=
  if (lookupJob q.jobs job.job_id).isSome then
    .error (.validationError ("Job already exists in queue: " ++ job.job_id))
  else
    let q1 : PrintQueue := { q with jobs := setJob q.jobs job.job_id job }
    match job.status with
    | .pending =>
        if job.priority > 0 then
          .ok { q1 with state := { q1.state with pending := job.job_id :: q1.state.pending } }
        else
          .ok { q1 with state := q1.state.add_job job.job_id now }
    | .uploading | .starting | .printing =>
        if job.job_id ∈ q1.state.active then .ok q1
        else .ok { q1 with state := { q1.state with active := q1.state.active ++ [job.job_id] } }
    | .completed =>
        if job.job_id ∈ q1.state.completed then .ok q1
        else .ok { q1 with state := { q1.state with completed := q1.state.completed ++ [job.job_id] } }
    | .failed | .error | .cancelled =>
        if job.job_id ∈ q1.state.failed then .ok q1
        else .ok { q1 with state := { q1.state with failed := q1.state.failed ++ [job.job_id] } }
    | .retrying => .ok q1

/-- Totalised enqueue: on `ValidationError` the raise happens before any
mutation, so the queue is unchanged. -/
def enqueueT (q : PrintQueue) (job : PrintJob) (now : Nat) : PrintQueue :=
  match q.enqueue job now with
  | .ok q' => q'
  | .error _ => q

/-- `PrintQueue.dequeue`: take the head of pending; with no record the head id
is dropped from pending and `None` is returned; otherwise the id moves to
active and the job is returned. -/
def PrintQueue.dequeue (q : PrintQueue) (now : Nat) : Option PrintJob × PrintQueue :=
  match q.state.next_job with
  | none => (none, q)
  | some job_id =>
    match lookupJob q.jobs job_id with
    | none =>
        (none, { q with state := { q.state with pending := q.state.pending.erase job_id } })
    | some job =>
        let s' := (q.state.move_to_active job_id now).2
        (some job, { q with state := s' })

/-- `PrintQueue.get_job`. -/
def PrintQueue.get_job (q : PrintQueue) (job_id : String) : Option PrintJob :=
  lookupJob q.jobs job_id

/-- `PrintQueue.update_job`: replace an existing record, else `ValidationError`. -/
def PrintQueue.update_job (q : PrintQueue) (job : PrintJob) :
    Except QueueOpError PrintQueue :=
  if (lookupJob q.jobs job.job_id).isSome then
    .ok { q with jobs := setJob q.jobs job.job_id job }
  else
    .error (.validationError ("Job not found in queue: " ++ job.job_id))

/-- Totalised update (the raise happens before any mutation). -/
def updateT (q : PrintQueue) (job : PrintJob) : PrintQueue :=
  match q.update_job job with
  | .ok q' => q'
  | .error _ => q

/-- `PrintQueue.mark_completed`: set the stored record status to COMPLETED
(the Python code mutates the shared job object), then `move_to_completed`. -/
def PrintQueue.mark_completed (q : PrintQueue) (job_id : String) (now : Nat) :
    Bool × PrintQueue :=
  match lookupJob q.jobs job_id with
  | none => (false, q)
  | some job =>
    let job1 := { job with status := PrintJobStatus.completed }
    let q1 : PrintQueue := { q with jobs := setJob q.jobs job_id job1 }
    let (success, s') := q1.state.move_to_completed job_id now
    (success, { q1 with state := s' })

/-- `PrintQueue.mark_failed`: set the stored record status to FAILED, set the
error message when truthy (non-empty), then `move_to_failed`. -/
def PrintQueue.mark_failed (q : PrintQueue) (job_id : String)
    (error_message : Option String) (now : Nat) : Bool × PrintQueue :=
  match lookupJob q.jobs job_id with
  | none => (false, q)
  | some job =>
    let job1 := { job with status := PrintJobStatus.failed }
    let job2 :=
      match error_message with
      | some s => if s = "" then job1 else { job1 with error_message := some s }
      | none => job1
    let q1 : PrintQueue := { q with jobs := setJob q.jobs job_id job2 }
    let (success, s') := q1.state.move_to_failed job_id now
    (success, { q1 with state := s' })

/-- `PrintQueue.get_state`: a snapshot copy (identity in the pure model). -/
def PrintQueue.get_state (q : PrintQueue) : QueueState :=
  q.state

/-! ## Persistence (`save` / `load`)

`save` serialises the state plus every job record (with `gcode_path`
rendered as a string) into the queue file; `load` restores the state and
reconstructs every `PrintJob`, re-running the constructor validation
(`validate_gcode_path`: the file must exist and carry a recognised
extension).  The filesystem is embedded as the list of existing paths. -/

/-- One serialised job record (`job.model_dump(mode="json")`). -/
structure JobDump where
  job_id : String
  gcode_path : String
  printer_id : Option String
  name : Option String
  description : Option String
  priority : Int
  design_id : Option String
  customer_id : Option String
  status : PrintJobStatus
  progress : Nat
  current_layer : Option Nat
  total_layers : Option Nat
  created_at : Nat
  started_at : Option Nat
  completed_at : Option Nat
  estimated_duration_seconds : Option Nat
  actual_duration_seconds : Option Nat
  retry_count : Nat
  max_retries : Nat
  error_message : Option String
  error_code : Option String
deriving DecidableEq

/-- Serialise a job record. -/
def dumpJob (j : PrintJob) : JobDump :=
  { job_id := j.job_id, gcode_path := j.gcode_path.path, printer_id := j.printer_id,
    name := j.name, description := j.description, priority := j.priority,
    design_id := j.design_id, customer_id := j.customer_id, status := j.status,
    progress := j.progress, current_layer := j.current_layer,
    total_layers := j.total_layers, created_at := j.created_at,
    started_at := j.started_at, completed_at := j.completed_at,
    estimated_duration_seconds := j.estimated_duration_seconds,
    actual_duration_seconds := j.actual_duration_seconds,
    retry_count := j.retry_count, max_retries := j.max_retries,
    error_message := j.error_message, error_code := j.error_code }

/-- The persisted queue document: `{state: ..., jobs: {id -> job_fields}}`. -/
structure SavedQueueData where
  state : QueueState
  jobs : List (String × JobDump)
deriving DecidableEq

/-- `PrintQueue.save` (the atomic temp-file/rename mechanics collapse to
producing the document). -/
def PrintQueue.save (q : PrintQueue) : SavedQueueData :=
  { state := q.state, jobs := q.jobs.map (fun p => (p.1, dumpJob p.2)) }

/-- Final path component (`Path.name`), as its character list. -/
def fileName (p : String) : List Char :=
  (p.data.reverse.takeWhile (fun c => c ≠ '/')).reverse

/-- `Path.suffix`: `name[i:]` for the last dot index `i` when
`0 < i < len(name) - 1`, else the empty string. -/
def pathSuffix (p : String) : String :=
  let cs := fileName p
  let r := cs.reverse.indexOf '.'
  if r < cs.length then
    let i := cs.length - 1 - r
    if 0 < i ∧ i < cs.length - 1 then String.mk (cs.drop i) else ""
  else ""

/-- `str.lower()` (ASCII case folding suffices for extensions). -/
def lowerStr (s : String) : String :=
  String.mk (s.data.map Char.toLower)

/-- The recognised G-code extensions from `validate_gcode_path`. -/
def gcodeExtensions : List String := [".gcode", ".gco", ".g"]

/-- `PrintJob.validate_gcode_path`: the file must exist (path in the
filesystem `fs`) and its lowercased suffix must be a G-code extension. -/
def validate_gcode_path (fs : List String) (p : String) : Except String FPath :=
  if p ∈ fs then
    if lowerStr (pathSuffix p) ∈ gcodeExtensions then .ok ⟨p⟩
    else .error ("Invalid G-code file extension: " ++ pathSuffix p)
  else .error ("G-code file not found: " ++ p)

/-- Reconstruct a `PrintJob` from a dump (`PrintJob(**job_data)`), re-running
the path validator. -/
def mkPrintJob (fs : List String) (d : JobDump) : Except String PrintJob :=
  match validate_gcode_path fs d.gcode_path with
  | .error e => .error e
  | .ok fp =>
      .ok { job_id := d.job_id, gcode_path := fp, printer_id := d.printer_id,
            name := d.name, description := d.description, priority := d.priority,
            design_id := d.design_id, customer_id := d.customer_id,
            status := d.status, progress := d.progress,
            current_layer := d.current_layer, total_layers := d.total_layers,
            created_at := d.created_at, started_at := d.started_at,
            completed_at := d.completed_at,
            estimated_duration_seconds := d.estimated_duration_seconds,
            actual_duration_seconds := d.actual_duration_seconds,
            retry_count := d.retry_count, max_retries := d.max_retries,
            error_message := d.error_message, error_code := d.error_code }

/-- Restore the record map; the first failing record aborts the load. -/
def loadJobs (fs : List String) :
    List (String × JobDump) → Except String (List (String × PrintJob))
  | [] => .ok []
  | (id, d) :: rest =>
    match mkPrintJob fs d with
    | .error e => .error e
    | .ok j =>
      match loadJobs fs rest with
      | .error e => .error e
      | .ok js => .ok ((id, j) :: js)

/-- Constructing a fresh `PrintQueue` over an existing store runs `load`:
restore the state, then rebuild every job record. -/
def loadQueue (fs : List String) (data : SavedQueueData) :
    Except String PrintQueue :=
  match loadJobs fs data.jobs with
  | .error e => .error e
  | .ok js => .ok { jobs := js, state := data.state }

/-! ## Retention (`clear_terminal_jobs`)

Python list slicing with a negated count: `lst[:-k]` and `lst[-k:]`.
For `k = 0` the slices are `lst[:0] = []` and `lst[0:] = lst` because
`-0 == 0` — so `clear_terminal_jobs(keep_count=0)` removes nothing. -/

/-- Python `lst[:-k]`. -/
def pySliceDropLast (l : List String) (k : Nat) : List String :=
  if k = 0 then [] else l.take (l.length - k)

/-- Python `lst[-k:]`. -/
def pySliceTakeLast (l : List String) (k : Nat) : List String :=
  if k = 0 then l else l.drop (l.length - k)

/-- Pop each id from the record map (`self._jobs.pop(job_id, None)`). -/
def popJobs (m : List (String × PrintJob)) (ids : List String) :
    List (String × PrintJob) :=
  ids.foldl (fun acc id => popJob acc id) m

/-- `PrintQueue.clear_terminal_jobs`: when a terminal list is longer than
`keep_count`, drop its oldest entries (and their records) and keep the most
recent `keep_count`; the removed counter increments once per dropped entry. -/
def PrintQueue.clear_terminal_jobs (q : PrintQueue) (keep_count : Nat) :
    Nat × PrintQueue :=
  let cLen := q.state.completed.length
  let step1 :=
    if keep_count < cLen then
      let old_completed := pySliceDropLast q.state.completed keep_count
      (old_completed.length, popJobs q.jobs old_completed,
        pySliceTakeLast q.state.completed keep_count)
    else (0, q.jobs, q.state.completed)
  let fLen := q.state.failed.length
  let step2 :=
    if keep_count < fLen then
      let old_failed := pySliceDropLast q.state.failed keep_count
      (old_failed.length, popJobs step1.2.1 old_failed,
        pySliceTakeLast q.state.failed keep_count)
    else (0, step1.2.1, q.state.failed)
  (step1.1 + step2.1,
    { jobs := step2.2.1,
      state := { q.state with completed := step1.2.2, failed := step2.2.2 } })

/-! ## Agent (`agent.py`)

The device adapter is abstracted: a `DeviceCtx` records whether the printer
is connected and whether a device-side cancel command would succeed.  All
device-side cancel failures are `PrinterControlError`s, which `cancel_job`
catches and logs, so the device outcome never influences the local queue
transition. -/

/-- Abstract device adapter state as seen by `cancel_job`. -/
structure DeviceCtx where
  connected : Bool := true
  cancelOk : Bool := true
deriving DecidableEq

/-- The device-side portion of `cancel_job`: a cancel command is attempted
only for PRINTING/STARTING jobs on a connected printer; `false` means the
command raised a `PrinterControlError` (caught by `cancel_job`). -/
def deviceCancelOutcome (dev : DeviceCtx) (job : PrintJob) : Bool :=
  if (job.status = .printing ∨ job.status = .starting) ∧ dev.connected then
    dev.cancelOk
  else true

/-- `PrinterAgent.cancel_job`: no-op on absent or terminal jobs; otherwise
attempt the device cancel (failures caught), set the job status to CANCELLED,
`update_job`, then `mark_failed(job_id, "Cancelled by user")` and save. -/
def cancel_job (q : PrintQueue) (dev : DeviceCtx) (job_id : String) (now : Nat) :
    Bool × PrintQueue :=
  match lookupJob q.jobs job_id with
  | none => (false, q)
  | some job =>
    if job.is_terminal then (false, q)
    else
      let _cancelSent := deviceCancelOutcome dev job
      let job1 := { job with status := PrintJobStatus.cancelled }
      let q1 := updateT q job1
      let q2 := (q1.mark_failed job_id (some "Cancelled by user") now).2
      (true, q2)

/-- `PrinterAgent._handle_job_failure`: record the error, increment
`retry_count`, then either retry (status RETRYING, back to PENDING and
re-enqueue — the Python code mutates the shared record object, so the
PENDING write is visible in the map even though the re-enqueue raises a
duplicate-id `ValidationError`) or, when `can_retry()` is false, mark the
job FAILED permanently. -/
def _handle_job_failure (q : PrintQueue) (job : PrintJob) (error_message : String)
    (now : Nat) : PrintQueue :=
  let job1 := { job with error_message := some error_message,
                         retry_count := job.retry_count + 1 }
  if job1.can_retry then
    let job2 := { job1 with status := PrintJobStatus.retrying }
    let q1 := updateT q job2
    let job3 := { job2 with status := PrintJobStatus.pending }
    let q2 := updateT q1 job3
    enqueueT q2 job3 now
  else
    let job2 := { job1 with status := PrintJobStatus.failed }
    let q1 := updateT q job2
    (q1.mark_failed job.job_id (some error_message) now).2

/-- The workflow step at which a job's execution raises. -/
inductive FailStep
  | atUpload
  | atStart
deriving DecidableEq

/-- `PrinterAgent._process_next_job` in an iteration whose `_execute_job`
raises at the given step: dequeue, walk the UPLOADING/STARTING status writes
(each persisted via `update_job`), then run `_handle_job_failure`. -/
def _process_next_job_failing (q : PrintQueue) (step : FailStep) (msg : String)
    (now : Nat) : PrintQueue :=
  match q.dequeue now with
  | (none, q') => q'
  | (some job, q') =>
    let job1 := { job with status := PrintJobStatus.uploading }
    let q1 := updateT q' job1
    match step with
    | .atUpload => _handle_job_failure q1 job1 msg now
    | .atStart =>
      let job2 := { job1 with status := PrintJobStatus.starting }
      let q2 := updateT q1 job2
      _handle_job_failure q2 job2 msg now

/-- `PrinterAgent._process_next_job` in an iteration whose workflow succeeds:
dequeue, then UPLOADING, STARTING and PRINTING status writes with
`started_at` stamped on the last one. -/
def _process_next_job_ok (q : PrintQueue) (now : Nat) : PrintQueue :=
  match q.dequeue now with
  | (none, q') => q'
  | (some job, q') =>
    let job1 := { job with status := PrintJobStatus.uploading }
    let q1 := updateT q' job1
    let job2 := { job1 with status := PrintJobStatus.starting }
    let q2 := updateT q1 job2
    let job3 := { job2 with status := PrintJobStatus.printing,
                            started_at := some now }
    updateT q2 job3

/-- `PrinterAgent._handle_job_completion`: stamp COMPLETED, `completed_at`
and the actual duration, persist, then `mark_completed`. -/
def _handle_job_completion (q : PrintQueue) (job : PrintJob) (now : Nat) :
    PrintQueue :=
  let job1 := { job with status := PrintJobStatus.completed,
                         completed_at := some now }
  let job2 :=
    match job1.started_at with
    | some s => { job1 with actual_duration_seconds := some (now - s) }
    | none => job1
  let q1 := updateT q job2
  (q1.mark_completed job2.job_id now).2

/-- One job's slice of `PrinterAgent._monitor_active_jobs`: skipped unless the
record exists with status PRINTING; when the device status references this
job, copy progress/layers onto the record, and when the device is idle with
progress ≥ 99 run the completion handler.  A `ConnectionError` while polling
leaves the job untouched, which coincides with `devMatches = false`. -/
def _monitor_job (q : PrintQueue) (job_id : String) (devMatches devIdle : Bool)
    (devProgress : Option Nat) (devLayer devTotal : Option Nat) (now : Nat) :
    PrintQueue :=
  match lookupJob q.jobs job_id with
  | none => q
  | some job =>
    if job.status = .printing then
      if devMatches then
        let job1 := { job with progress := devProgress.getD 0,
                               current_layer := devLayer,
                               total_layers := devTotal }
        let q1 := updateT q job1
        if devIdle ∧ 99 ≤ job1.progress then _handle_job_completion q1 job1 now
        else q1
      else q
    else q

/-! ## Transition systems

`QStep` is the queue-level operation alphabet of the spec's partition
invariant (enqueue / dequeue / mark_completed / mark_failed); `AStep` is the
agent-level alphabet (submission, a dispatch iteration that succeeds or
fails, monitoring, cancellation).  Reachability is the reflexive-transitive
closure from a freshly constructed empty queue. -/

/-- One queue-level operation (exceptions leave the state unchanged). -/
inductive QStep : PrintQueue → PrintQueue → Prop
  | enqueue (q : PrintQueue) (j : PrintJob) (now : Nat) :
      QStep q (enqueueT q j now)
  | dequeue (q : PrintQueue) (now : Nat) :
      QStep q (q.dequeue now).2
  | markCompleted (q : PrintQueue) (id : String) (now : Nat) :
      QStep q (q.mark_completed id now).2
  | markFailed (q : PrintQueue) (id : String) (msg : Option String) (now : Nat) :
      QStep q (q.mark_failed id msg now).2

/-- Queue states reachable from the empty queue by queue-level operations. -/
def ReachQ (q : PrintQueue) : Prop :=
  Relation.ReflTransGen QStep emptyQueue q

/-- `QStep` restricted as the amended partition invariant requires: no
enqueue of a RETRYING job, and no `mark_failed` on an id already in the
completed list. -/
inductive QStepSafe : PrintQueue → PrintQueue → Prop
  | enqueue (q : PrintQueue) (j : PrintJob) (now : Nat)
      (h : j.status ≠ .retrying) : QStepSafe q (enqueueT q j now)
  | dequeue (q : PrintQueue) (now : Nat) :
      QStepSafe q (q.dequeue now).2
  | markCompleted (q : PrintQueue) (id : String) (now : Nat) :
      QStepSafe q (q.mark_completed id now).2
  | markFailed (q : PrintQueue) (id : String) (msg : Option String) (now : Nat)
      (h : id ∉ q.state.completed) : QStepSafe q (q.mark_failed id msg now).2

/-- Queue states reachable from empty under the restricted operations. -/
def ReachQSafe (q : PrintQueue) : Prop :=
  Relation.ReflTransGen QStepSafe emptyQueue q

/-- One agent-level operation.  A submission enqueues a freshly constructed
PENDING job with `retry_count = 0` (`submit_job` builds the record with the
model defaults); the dispatch, monitoring and cancellation steps are the
control-loop functions above. -/
inductive AStep : PrintQueue → PrintQueue → Prop
  | submit (q : PrintQueue) (j : PrintJob) (now : Nat)
      (hs : j.status = .pending) (hr : j.retry_count = 0) :
      AStep q (enqueueT q j now)
  | procFail (q : PrintQueue) (step : FailStep) (msg : String) (now : Nat) :
      AStep q (_process_next_job_failing q step msg now)
  | procOk (q : PrintQueue) (now : Nat) :
      AStep q (_process_next_job_ok q now)
  | monitor (q : PrintQueue) (id : String) (devMatches devIdle : Bool)
      (p l t : Option Nat) (now : Nat) :
      AStep q (_monitor_job q id devMatches devIdle p l t now)
  | cancel (q : PrintQueue) (dev : DeviceCtx) (id : String) (now : Nat) :
      AStep q (cancel_job q dev id now).2

/-- Queue states reachable from empty under agent-level operations. -/
def ReachA (q : PrintQueue) : Prop :=
  Relation.ReflTransGen AStep emptyQueue q

/-- Queue-level operations that never `mark_failed` (cancel) the two tracked
jobs `a` and `b` of the FIFO property. -/
inductive FifoStep (a b : String) : PrintQueue → PrintQueue → Prop
  | enqueue (q : PrintQueue) (j : PrintJob) (now : Nat) :
      FifoStep a b q (enqueueT q j now)
  | dequeue (q : PrintQueue) (now : Nat) :
      FifoStep a b q (q.dequeue now).2
  | markCompleted (q : PrintQueue) (id : String) (now : Nat) :
      FifoStep a b q (q.mark_completed id now).2
  | markFailed (q : PrintQueue) (id : String) (msg : Option String) (now : Nat)
      (ha : id ≠ a) (hb : id ≠ b) :
      FifoStep a b q (q.mark_failed id msg now).2

/-! ## Invariants -/

/-- Queue-level well-formedness: every stored record's id sits in exactly one
of the four lists, every listed id has a record, and the lists carry no
duplicates. -/
structure InvQ (q : PrintQueue) : Prop where
  rec_one : ∀ id, (lookupJob q.jobs id).isSome → q.state.memCount id = 1
  listed_rec : ∀ id, q.state.memCount id ≠ 0 → (lookupJob q.jobs id).isSome
  ndp : q.state.pending.Nodup
  nda : q.state.active.Nodup
  ndc : q.state.completed.Nodup
  ndf : q.state.failed.Nodup

/-- Agent-level well-formedness: record keys match job ids, pending ids hold
fresh PENDING records (`retry_count = 0`), active ids hold PRINTING records,
and every record's retry count is at most `max(max_retries, 1)`. -/
structure InvA (q : PrintQueue) : Prop where
  ndp : q.state.pending.Nodup
  nda : q.state.active.Nodup
  key_ok : ∀ id j, lookupJob q.jobs id = some j → j.job_id = id
  pending_ok : ∀ id ∈ q.state.pending, ∃ j, lookupJob q.jobs id = some j ∧
      j.status = PrintJobStatus.pending ∧ j.retry_count = 0
  active_ok : ∀ id ∈ q.state.active, ∃ j, lookupJob q.jobs id = some j ∧
      j.status = PrintJobStatus.printing
  rc_bound : ∀ id j, lookupJob q.jobs id = some j →
      j.retry_count ≤ max j.max_retries 1

/-- The FIFO tracking invariant for two priority-0 jobs `a` (enqueued first)
and `b`: both have records, each occurs at most once in pending, and while
`a` is still pending, `b` is pending behind it. -/
def FifoInv (a b : String) (q : PrintQueue) : Prop :=
  (lookupJob q.jobs a).isSome ∧ (lookupJob q.jobs b).isSome ∧
    q.state.pending.count a ≤ 1 ∧ q.state.pending.count b ≤ 1 ∧
    (a ∈ q.state.pending → [a, b].Sublist q.state.pending)

/-! ## Concrete scenario inputs -/

/-- A fresh priority-0 job as `submit_job` constructs it. -/
def jobA : PrintJob := { job_id := "jobA", gcode_path := ⟨"/data/a.gcode"⟩ }

/-- A second fresh priority-0 job. -/
def jobB : PrintJob := { job_id := "jobB", gcode_path := ⟨"/data/b.gcode"⟩ }

/-- A high-priority job (`priority = 10`). -/
def jobHi : PrintJob :=
  { job_id := "jobHi", gcode_path := ⟨"/data/hi.gcode"⟩, priority := 10 }

/-- A fresh job whose `max_retries` is zero. -/
def jobZero : PrintJob :=
  { job_id := "jobZero", gcode_path := ⟨"/data/z.gcode"⟩, max_retries := 0 }

/-- An actively printing job. -/
def jobPrint : PrintJob :=
  { job_id := "jobPrint", gcode_path := ⟨"/data/p.gcode"⟩,
    status := PrintJobStatus.printing, started_at := some 50 }

/-- A queue whose only job is actively printing. -/
def queuePrinting : PrintQueue :=
  { jobs := [("jobPrint", jobPrint)], state := { active := ["jobPrint"] } }

/-- A corrupted queue: pending references "ghost" with no record. -/
def queueCorrupt : PrintQueue :=
  { jobs := [("jobB", jobB)], state := { pending := ["ghost", "jobB"] } }

/-- A queue with one completed job, for the retention boundary case. -/
def jobDoneC : PrintJob :=
  { job_id := "done0", gcode_path := ⟨"/data/d.gcode"⟩,
    status := PrintJobStatus.completed }

/-- Retention boundary queue: a single completed job. -/
def queueOneCompleted : PrintQueue :=
  { jobs := [("done0", jobDoneC)], state := { completed := ["done0"] } }

/-- The id used by the 150-completed-jobs retention scenario. -/
def cid (i : Nat) : String := "c" ++ toString i

/-- A completed job for the retention scenario. -/
def mkCompletedJob (i : Nat) : PrintJob :=
  { job_id := cid i, gcode_path := ⟨"/data/c.gcode"⟩,
    status := PrintJobStatus.completed }

/-- A queue holding 150 completed jobs. -/
def queue150 : PrintQueue :=
  { jobs := (List.range 150).map (fun i => (cid i, mkCompletedJob i)),
    state := { completed := (List.range 150).map cid } }

/-- A queue with one pending priority-0 job (record present). -/
def queuePendingA : PrintQueue :=
  { jobs := [("jobA", jobA)], state := { pending := ["jobA"] } }

/-- A mixed queue used for the persistence round trip. -/
def queueMixed : PrintQueue :=
  { jobs := [("jobA", jobA), ("jobPrint", jobPrint)],
    state := { pending := ["jobA"], active := ["jobPrint"], last_modified := 7 } }

/-- C1 scenario: enqueue a fresh job, then one dispatch iteration whose
upload raises. -/
def c1Queue : PrintQueue :=
  _process_next_job_failing (enqueueT emptyQueue jobA 1) .atUpload "upload failed" 2

/-- C2 counterexample scenario: enqueue, dequeue, mark_completed, then
mark_failed the same job. -/
def c2Queue : PrintQueue :=
  ((((enqueueT emptyQueue jobA 1).dequeue 2).2.mark_completed "jobA" 3).2.mark_failed
    "jobA" (some "device error") 4).2

/-- C4 counterexample scenario: a zero-`max_retries` job submitted and failing
once. -/
def c4Queue : PrintQueue :=
  _process_next_job_failing (enqueueT emptyQueue jobZero 1) .atUpload "boom" 2

/-- The record stored for `jobZero` after its single failure. -/
def jobZeroFailed : PrintJob :=
  { jobZero with status := PrintJobStatus.failed, error_message := some "boom",
                 retry_count := 1 }

end LeSing

namespace LeSing

/-! ## Helper lemmas -/

theorem lookupJob_setJob (m : List (String × PrintJob)) (id : String)
    (j : PrintJob) (id' : String) :
    lookupJob (setJob m id j) id' = if id' = id then some j else lookupJob m id' := by
  induction m with
  | nil =>
      by_cases h : id' = id
      · subst h; simp [setJob, lookupJob]
      · simp [setJob, lookupJob, h, Ne.symm h]
  | cons p rest ih =>
      obtain ⟨k, x⟩ := p
      by_cases hk : k = id
      · subst hk
        by_cases h : id' = k
        · subst h; simp [setJob, lookupJob]
        · simp [setJob, lookupJob, h, Ne.symm h]
      · by_cases h : k = id'
        · have hid : id' ≠ id := fun he => hk (h.trans he)
          simp [setJob, lookupJob, hk, h, hid]
        · by_cases h2 : id' = id
          · subst h2; simp [setJob, lookupJob, hk, h, ih]
          · simp [setJob, lookupJob, hk, h, h2, ih]

theorem updateT_present (q : PrintQueue) (job : PrintJob)
    (h : (lookupJob q.jobs job.job_id).isSome) :
    updateT q job = { q with jobs := setJob q.jobs job.job_id job } := by
  simp [updateT, PrintQueue.update_job, h]

/-! ## C6: priority insertion at the front -/

/-- C6: enqueueing a PENDING job with priority > 0 inserts its id at the
front of the pending list, and a single dequeue then returns that job before
every job (in particular every priority-0 job) already pending at enqueue
time. -/
theorem priority_enqueue_front_and_dequeued_first
    (q : PrintQueue) (j : PrintJob) (now now' : Nat)
    (hs : j.status = PrintJobStatus.pending) (hp : 0 < j.priority)
    (hfresh : lookupJob q.jobs j.job_id = none) :
    (enqueueT q j now).state.pending = j.job_id :: q.state.pending ∧
      ((enqueueT q j now).dequeue now').1 = some j := by
  have he : enqueueT q j now =
      { jobs := setJob q.jobs j.job_id j,
        state := { q.state with pending := j.job_id :: q.state.pending } } := by
    simp [enqueueT, PrintQueue.enqueue, hfresh, hs, hp]
  refine ⟨by rw [he], ?_⟩
  rw [he]
  simp [PrintQueue.dequeue, QueueState.next_job, lookupJob_setJob,
    QueueState.move_to_active]

/-- C6 witness: with a priority-0 job already pending, enqueueing a
priority-10 job puts it at the front and one dequeue returns it. -/
theorem priority_enqueue_front_witness :
    jobHi.status = PrintJobStatus.pending ∧ 0 < jobHi.priority ∧
      lookupJob queuePendingA.jobs jobHi.job_id = none ∧
      ((enqueueT queuePendingA jobHi 2).state.pending = jobHi.job_id :: queuePendingA.state.pending ∧
        ((enqueueT queuePendingA jobHi 2).dequeue 3).1 = some jobHi) :=
  ⟨by decide, by decide, by decide,
    priority_enqueue_front_and_dequeued_first queuePendingA jobHi 2 3
      (by decide) (by decide) (by decide)⟩

/-! ## C8: dequeue on a corrupt head -/

/-- C8 counterexample: with pending `["ghost", "jobB"]` where only `jobB`
has a record, a single `dequeue()` returns `None` — it does not retry and
return the next record-bearing job as the claim states. -/
theorem dequeue_corrupt_head_returns_none :
    (queueCorrupt.dequeue 0).1 = none ∧
      lookupJob queueCorrupt.jobs "jobB" = some jobB ∧
      queueCorrupt.state.pending = ["ghost", "jobB"] := by
  exact ⟨by decide, by decide, by decide⟩

/-- C8 amended: a corrupt head id is silently dropped from pending, but the
same `dequeue()` call returns `None`; only a subsequent call returns the
next pending job that has a record. -/
theorem dequeue_drops_corrupt_head_no_retry
    (q : PrintQueue) (x : String) (rest : List String) (now now' : Nat)
    (hp : q.state.pending = x :: rest)
    (hx : lookupJob q.jobs x = none) :
    (q.dequeue now).1 = none ∧
      (q.dequeue now).2.state.pending = rest ∧
      (q.dequeue now).2.jobs = q.jobs ∧
      (∀ y ys jy, rest = y :: ys → lookupJob q.jobs y = some jy →
        ((q.dequeue now).2.dequeue now').1 = some jy) := by
  have hd : q.dequeue now =
      (none, { q with state := { q.state with pending := rest } }) := by
    simp [PrintQueue.dequeue, QueueState.next_job, hp, hx]
  refine ⟨by rw [hd], by rw [hd], by rw [hd], ?_⟩
  intro y ys jy hrest hy
  rw [hd]
  simp [PrintQueue.dequeue, QueueState.next_job, hrest, hy]

/-- C8 amended witness: on the concrete corrupted queue the first dequeue
returns `None` dropping "ghost", and the second returns `jobB`. -/
theorem dequeue_drops_corrupt_head_witness :
    queueCorrupt.state.pending = "ghost" :: ["jobB"] ∧
      lookupJob queueCorrupt.jobs "ghost" = none ∧
      ((queueCorrupt.dequeue 0).1 = none ∧
        (queueCorrupt.dequeue 0).2.state.pending = ["jobB"] ∧
        (queueCorrupt.dequeue 0).2.jobs = queueCorrupt.jobs ∧
        (∀ y ys jy, ["jobB"] = y :: ys → lookupJob queueCorrupt.jobs y = some jy →
          ((queueCorrupt.dequeue 0).2.dequeue 1).1 = some jy)) :=
  ⟨by decide, by decide,
    dequeue_drops_corrupt_head_no_retry queueCorrupt "ghost" ["jobB"] 0 1
      (by decide) (by decide)⟩

/-! ## C9: mark_completed / mark_failed movement -/

/-- C9 counterexample: `mark_completed` on a job whose id is in the pending
list returns `False` and leaves the id in pending (it is not moved into
completed), although the stored status is mutated to COMPLETED. -/
theorem mark_completed_pending_not_moved :
    (queuePendingA.mark_completed "jobA" 1).1 = false ∧
      (queuePendingA.mark_completed "jobA" 1).2.state.pending = ["jobA"] ∧
      (queuePendingA.mark_completed "jobA" 1).2.state.completed = [] ∧
      lookupJob (queuePendingA.mark_completed "jobA" 1).2.jobs "jobA" =
        some { jobA with status := PrintJobStatus.completed } := by
  exact ⟨by decide, by decide, by decide, by decide⟩

/-- C9 amended: `mark_completed(id)` moves the id into completed only from
the active list (a pending id stays where it is and the call returns false,
though the stored status is still set to COMPLETED); `mark_failed(id, reason)`
moves the id from active or from pending into failed; both mutate the stored
record's status as a side effect whenever the record exists. -/
theorem mark_ops_move_and_set_status
    (q : PrintQueue) (id : String) (j : PrintJob) (msg : String) (now : Nat)
    (hj : lookupJob q.jobs id = some j) :
    (id ∈ q.state.active →
      (q.mark_completed id now).1 = true ∧
      (q.mark_completed id now).2.state.active = q.state.active.erase id ∧
      (q.mark_completed id now).2.state.completed = q.state.completed ++ [id] ∧
      lookupJob (q.mark_completed id now).2.jobs id =
        some { j with status := PrintJobStatus.completed }) ∧
    (id ∉ q.state.active →
      (q.mark_completed id now).1 = false ∧
      (q.mark_completed id now).2.state = q.state ∧
      lookupJob (q.mark_completed id now).2.jobs id =
        some { j with status := PrintJobStatus.completed }) ∧
    (msg ≠ "" → id ∈ q.state.active → id ∉ q.state.failed →
      (q.mark_failed id (some msg) now).1 = true ∧
      (q.mark_failed id (some msg) now).2.state.active = q.state.active.erase id ∧
      (q.mark_failed id (some msg) now).2.state.pending = q.state.pending ∧
      (q.mark_failed id (some msg) now).2.state.failed = q.state.failed ++ [id] ∧
      lookupJob (q.mark_failed id (some msg) now).2.jobs id =
        some { j with status := PrintJobStatus.failed, error_message := some msg }) ∧
    (msg ≠ "" → id ∉ q.state.active → id ∈ q.state.pending → id ∉ q.state.failed →
      (q.mark_failed id (some msg) now).1 = true ∧
      (q.mark_failed id (some msg) now).2.state.pending = q.state.pending.erase id ∧
      (q.mark_failed id (some msg) now).2.state.active = q.state.active ∧
      (q.mark_failed id (some msg) now).2.state.failed = q.state.failed ++ [id] ∧
      lookupJob (q.mark_failed id (some msg) now).2.jobs id =
        some { j with status := PrintJobStatus.failed, error_message := some msg }) := by
  refine ⟨?_, ?_, ?_, ?_⟩
  · intro ha
    simp [PrintQueue.mark_completed, hj, QueueState.move_to_completed, ha,
      lookupJob_setJob]
  · intro ha
    simp [PrintQueue.mark_completed, hj, QueueState.move_to_completed, ha,
      lookupJob_setJob]
  · intro hm ha hf
    simp [PrintQueue.mark_failed, hj, hm, QueueState.move_to_failed, ha, hf,
      lookupJob_setJob]
  · intro hm ha hp hf
    simp [PrintQueue.mark_failed, hj, hm, QueueState.move_to_failed, ha, hp, hf,
      lookupJob_setJob]

/-- C9 amended witness: applied to the queue whose job is active. -/
theorem mark_ops_move_witness :
    lookupJob queuePrinting.jobs "jobPrint" = some jobPrint ∧
      ("jobPrint" ∈ queuePrinting.state.active →
        (queuePrinting.mark_completed "jobPrint" 9).1 = true ∧
        (queuePrinting.mark_completed "jobPrint" 9).2.state.active =
          queuePrinting.state.active.erase "jobPrint" ∧
        (queuePrinting.mark_completed "jobPrint" 9).2.state.completed =
          queuePrinting.state.completed ++ ["jobPrint"] ∧
        lookupJob (queuePrinting.mark_completed "jobPrint" 9).2.jobs "jobPrint" =
          some { jobPrint with status := PrintJobStatus.completed }) :=
  ⟨by decide,
    (mark_ops_move_and_set_status queuePrinting "jobPrint" jobPrint "e" 9
      (by decide)).1⟩

/-! ## C10: retention trimming -/

/-- C10 counterexample: `clear_terminal_jobs(keep_count=0)` removes nothing —
`lst[:-0]` is the empty slice in Python — so a queue with one completed job
keeps it and reports 0 removed, not the 1 the claim's reading requires. -/
theorem clear_terminal_keep_zero_removes_nothing :
    (queueOneCompleted.clear_terminal_jobs 0).1 = 0 ∧
      (queueOneCompleted.clear_terminal_jobs 0).2.state.completed = ["done0"] ∧
      lookupJob (queueOneCompleted.clear_terminal_jobs 0).2.jobs "done0" =
        some jobDoneC := by
  exact ⟨by decide, by decide, by decide⟩

/-- C10 amended: for `keep_count ≥ 1`, `clear_terminal_jobs` trims completed
and failed independently to their most recent `keep_count` entries, pops the
dropped records, and returns the total number of entries removed (for
`keep_count = 0` it removes nothing). -/
theorem clear_terminal_trims_and_counts (q : PrintQueue) (k : Nat) (hk : 1 ≤ k) :
    (q.clear_terminal_jobs k).1 =
        (q.state.completed.length - k) + (q.state.failed.length - k) ∧
      (q.clear_terminal_jobs k).2.state.completed =
        q.state.completed.drop (q.state.completed.length - k) ∧
      (q.clear_terminal_jobs k).2.state.failed =
        q.state.failed.drop (q.state.failed.length - k) ∧
      (q.clear_terminal_jobs k).2.state.pending = q.state.pending ∧
      (q.clear_terminal_jobs k).2.state.active = q.state.active ∧
      (q.clear_terminal_jobs k).2.jobs =
        popJobs (popJobs q.jobs (q.state.completed.take (q.state.completed.length - k)))
          (q.state.failed.take (q.state.failed.length - k)) := by
  have hk0 : k ≠ 0 := Nat.one_le_iff_ne_zero.mp hk
  by_cases hc : k < q.state.completed.length <;>
    by_cases hf : k < q.state.failed.length <;>
      simp [PrintQueue.clear_terminal_jobs, hc, hf, pySliceDropLast,
        pySliceTakeLast, hk0, List.length_take, Nat.sub_eq_zero_of_le,
        Nat.le_of_not_lt, min_eq_left, Nat.sub_le] <;>
      constructor

/-- C10 amended witness: the spec scenario — 150 completed jobs with
`keep_count = 100` leaves 100 completed entries and reports 50 removed. -/
theorem clear_terminal_trims_witness :
    (1 ≤ 100 ∧
      (queue150.clear_terminal_jobs 100).1 =
          (queue150.state.completed.length - 100) + (queue150.state.failed.length - 100) ∧
        (queue150.clear_terminal_jobs 100).2.state.completed =
          queue150.state.completed.drop (queue150.state.completed.length - 100) ∧
        (queue150.clear_terminal_jobs 100).2.state.failed =
          queue150.state.failed.drop (queue150.state.failed.length - 100) ∧
        (queue150.clear_terminal_jobs 100).2.state.pending = queue150.state.pending ∧
        (queue150.clear_terminal_jobs 100).2.state.active = queue150.state.active ∧
        (queue150.clear_terminal_jobs 100).2.jobs =
          popJobs (popJobs queue150.jobs
              (queue150.state.completed.take (queue150.state.completed.length - 100)))
            (queue150.state.failed.take (queue150.state.failed.length - 100))) ∧
      (queue150.clear_terminal_jobs 100).1 = 50 ∧
      (queue150.clear_terminal_jobs 100).2.state.completed.length = 100 := by
  refine ⟨⟨by decide, clear_terminal_trims_and_counts queue150 100 (by decide)⟩, ?_, ?_⟩
  · set_option maxRecDepth 10000 in decide
  · set_option maxRecDepth 10000 in decide

end LeSing

namespace LeSing

/-! ## C1: retry on failure -/

/-- C1 (code bug): a fresh job with `max_retries = 3` that fails once during
upload is immediately marked FAILED and moved to the failed list — it is not
re-queued as PENDING with one retry consumed, because `_handle_job_failure`
evaluates `can_retry()` while the job status is still UPLOADING/STARTING/
PRINTING (never FAILED/ERROR), so the RETRYING branch is unreachable. -/
theorem first_failure_marks_failed_despite_remaining_retries :
    lookupJob c1Queue.jobs "jobA" =
        some { jobA with status := PrintJobStatus.failed,
                         error_message := some "upload failed", retry_count := 1 } ∧
      (1 : Nat) < jobA.max_retries ∧
      c1Queue.state.pending = [] ∧
      c1Queue.state.active = [] ∧
      c1Queue.state.failed = ["jobA"] := by
  exact ⟨by decide, by decide, by decide, by decide, by decide⟩

/-! ## C3: cancellation -/

/-- C3 (code bug): cancelling an actively printing job on a device whose
cancel command fails (a caught `PrinterControlError`) returns `True` and the
local transition proceeds — but the stored status ends up FAILED, not
CANCELLED: `cancel_job` writes CANCELLED and then calls `mark_failed`, which
overwrites the shared record status with FAILED and the error message
"Cancelled by user". -/
theorem cancel_job_marks_failed_not_cancelled :
    (cancel_job queuePrinting ⟨true, false⟩ "jobPrint" 60).1 = true ∧
      lookupJob (cancel_job queuePrinting ⟨true, false⟩ "jobPrint" 60).2.jobs
          "jobPrint" =
        some { jobPrint with status := PrintJobStatus.failed,
                             error_message := some "Cancelled by user" } ∧
      (cancel_job queuePrinting ⟨true, false⟩ "jobPrint" 60).2.state.failed =
        ["jobPrint"] ∧
      (cancel_job queuePrinting ⟨true, false⟩ "jobPrint" 60).2.state.active = [] := by
  exact ⟨by decide, by decide, by decide, by decide⟩

/-! ## C5: persistence round trip -/

/-- Reconstructing a dumped job succeeds and returns the original record when
its artifact path still exists with a recognised extension. -/
theorem mkPrintJob_dumpJob (fs : List String) (j : PrintJob)
    (h1 : j.gcode_path.path ∈ fs)
    (h2 : lowerStr (pathSuffix j.gcode_path.path) ∈ gcodeExtensions) :
    mkPrintJob fs (dumpJob j) = .ok j := by
  simp [mkPrintJob, validate_gcode_path, dumpJob, h1, h2]

/-- Reconstructing a dumped record map succeeds and returns the original. -/
theorem loadJobs_dump (fs : List String) (m : List (String × PrintJob))
    (h : ∀ p ∈ m, p.2.gcode_path.path ∈ fs ∧
      lowerStr (pathSuffix p.2.gcode_path.path) ∈ gcodeExtensions) :
    loadJobs fs (m.map (fun p => (p.1, dumpJob p.2))) = .ok m := by
  induction m with
  | nil => simp [loadJobs]
  | cons p rest ih =>
      obtain ⟨h1, h2⟩ := h p (List.mem_cons_self p rest)
      have hrest := ih (fun p' hp' => h p' (List.mem_cons_of_mem p hp'))
      simp [loadJobs, mkPrintJob_dumpJob fs p.2 h1 h2, hrest]

/-- C5: `save()` followed by constructing a fresh queue over the same store
and `load()` restores the identical queue — `get_state()` and every
`get_job(id)` agree field for field — provided every stored job\'s artifact
path still exists with a recognised G-code extension. -/
theorem save_load_round_trip (q : PrintQueue) (fs : List String)
    (h : ∀ p ∈ q.jobs, p.2.gcode_path.path ∈ fs ∧
      lowerStr (pathSuffix p.2.gcode_path.path) ∈ gcodeExtensions) :
    loadQueue fs q.save = .ok q ∧
      (∀ q', loadQueue fs q.save = .ok q' →
        q'.get_state = q.get_state ∧ ∀ id, q'.get_job id = q.get_job id) := by
  have hl : loadQueue fs q.save = .ok q := by
    simp [loadQueue, PrintQueue.save, loadJobs_dump fs q.jobs h]
  refine ⟨hl, fun q' hq' => ?_⟩
  rw [hl] at hq'
  cases hq'
  exact ⟨rfl, fun _ => rfl⟩

/-- C5 witness: the round trip on a concrete mixed queue whose two artifact
paths exist. -/
theorem save_load_round_trip_witness :
    (∀ p ∈ queueMixed.jobs, p.2.gcode_path.path ∈ ["/data/a.gcode", "/data/p.gcode"] ∧
      lowerStr (pathSuffix p.2.gcode_path.path) ∈ gcodeExtensions) ∧
      loadQueue ["/data/a.gcode", "/data/p.gcode"] queueMixed.save = .ok queueMixed :=
  ⟨by decide,
    (save_load_round_trip queueMixed ["/data/a.gcode", "/data/p.gcode"]
      (by decide)).1⟩

/-! ## C7: FIFO among priority-0 jobs -/

/-- A two-element sublist of `x :: l` whose first element is not `x` is a
sublist of `l`. -/
theorem pair_sublist_of_cons {a b x : String} {l : List String}
    (h : List.Sublist [a, b] (x :: l)) (hx : x ≠ a) : List.Sublist [a, b] l := by
  cases h with
  | cons _ h' => exact h'
  | cons₂ _ h' => exact absurd rfl hx

/-- Erasing an element different from `a` and `b` keeps `[a, b]` a sublist. -/
theorem pair_sublist_erase {a b c : String} {l : List String}
    (ha : c ≠ a) (hb : c ≠ b) (h : List.Sublist [a, b] l) :
    List.Sublist [a, b] (l.erase c) := by
  induction l with
  | nil => simp at h
  | cons x xs ih =>
      by_cases hx : x = c
      · subst hx
        rw [List.erase_cons_head]
        exact pair_sublist_of_cons h ha
      · rw [List.erase_cons_tail (by simp [hx])]
        cases h with
        | cons _ h' => exact (ih h').cons x
        | cons₂ _ h' =>
            have hbmem : b ∈ xs := List.singleton_sublist.mp h'
            have hbmem' : b ∈ xs.erase c :=
              (List.mem_erase_of_ne (Ne.symm hb)).mpr hbmem
            exact List.Sublist.cons₂ _ (List.singleton_sublist.mpr hbmem')

/-- A fresh enqueue stores the record and either front-inserts the id into
pending, appends it, or leaves pending untouched. -/
theorem enqueueT_fresh_shape (q : PrintQueue) (j : PrintJob) (now : Nat)
    (hd : ¬ (lookupJob q.jobs j.job_id).isSome = true) :
    (enqueueT q j now).jobs = setJob q.jobs j.job_id j ∧
      ((enqueueT q j now).state.pending = j.job_id :: q.state.pending ∨
        (enqueueT q j now).state.pending = q.state.pending ++ [j.job_id] ∨
        (enqueueT q j now).state.pending = q.state.pending) := by
  cases hst : j.status with
  | pending =>
      by_cases hp : j.priority > 0
      · simp [enqueueT, PrintQueue.enqueue, hd, hst, hp]
      · by_cases hm : j.job_id ∈ q.state.pending
        · simp [enqueueT, PrintQueue.enqueue, hd, hst, hp, QueueState.add_job, hm]
        · simp [enqueueT, PrintQueue.enqueue, hd, hst, hp, QueueState.add_job, hm]
  | uploading =>
      by_cases hm : j.job_id ∈ q.state.active <;>
        simp [enqueueT, PrintQueue.enqueue, hd, hst, hm]
  | starting =>
      by_cases hm : j.job_id ∈ q.state.active <;>
        simp [enqueueT, PrintQueue.enqueue, hd, hst, hm]
  | printing =>
      by_cases hm : j.job_id ∈ q.state.active <;>
        simp [enqueueT, PrintQueue.enqueue, hd, hst, hm]
  | retrying =>
      simp [enqueueT, PrintQueue.enqueue, hd, hst]
  | completed =>
      by_cases hm : j.job_id ∈ q.state.completed <;>
        simp [enqueueT, PrintQueue.enqueue, hd, hst, hm]
  | failed =>
      by_cases hm : j.job_id ∈ q.state.failed <;>
        simp [enqueueT, PrintQueue.enqueue, hd, hst, hm]
  | cancelled =>
      by_cases hm : j.job_id ∈ q.state.failed <;>
        simp [enqueueT, PrintQueue.enqueue, hd, hst, hm]
  | error =>
      by_cases hm : j.job_id ∈ q.state.failed <;>
        simp [enqueueT, PrintQueue.enqueue, hd, hst, hm]

/-- An enqueue preserves the FIFO tracking invariant. -/
theorem fifoInv_enqueueT {a b : String} {q : PrintQueue}
    (hinv : FifoInv a b q) (j : PrintJob) (now : Nat) :
    FifoInv a b (enqueueT q j now) := by
  obtain ⟨hra, hrb, hca, hcb, hsub⟩ := hinv
  by_cases hd : (lookupJob q.jobs j.job_id).isSome = true
  · have hq : enqueueT q j now = q := by
      simp [enqueueT, PrintQueue.enqueue, hd]
    rw [hq]
    exact ⟨hra, hrb, hca, hcb, hsub⟩
  · obtain ⟨hjobs, hpend⟩ := enqueueT_fresh_shape q j now hd
    have hja : j.job_id ≠ a := fun he => hd (by rw [he]; exact hra)
    have hjb : j.job_id ≠ b := fun he => hd (by rw [he]; exact hrb)
    refine ⟨?_, ?_, ?_, ?_, ?_⟩
    · rw [hjobs, lookupJob_setJob, if_neg (Ne.symm hja)]; exact hra
    · rw [hjobs, lookupJob_setJob, if_neg (Ne.symm hjb)]; exact hrb
    · rcases hpend with h | h | h <;> rw [h]
      · rw [List.count_cons_of_ne (Ne.symm hja)]; exact hca
      · rw [List.count_append]
        simpa [List.count_cons, Ne.symm hja] using hca
      · exact hca
    · rcases hpend with h | h | h <;> rw [h]
      · rw [List.count_cons_of_ne (Ne.symm hjb)]; exact hcb
      · rw [List.count_append]
        simpa [List.count_cons, Ne.symm hjb] using hcb
      · exact hcb
    · intro hmem
      rcases hpend with h | h | h <;> rw [h] at hmem ⊢
      · have hmem' : a ∈ q.state.pending := by
          rcases List.mem_cons.mp hmem with he | hm
          · exact absurd he (Ne.symm hja)
          · exact hm
        exact (hsub hmem').cons _
      · have hmem' : a ∈ q.state.pending := by
          rcases List.mem_append.mp hmem with hm | hm
          · exact hm
          · simp at hm; exact absurd hm (Ne.symm hja)
        exact (hsub hmem').trans (List.sublist_append_left _ _)
      · exact hsub hmem

/-- Dequeue always turns pending into its tail and keeps the record map. -/
theorem dequeue_pending_tail (q : PrintQueue) (now : Nat) :
    (q.dequeue now).2.state.pending = q.state.pending.tail ∧
      (q.dequeue now).2.jobs = q.jobs := by
  cases hp : q.state.pending with
  | nil => simp [PrintQueue.dequeue, QueueState.next_job, hp]
  | cons h t =>
      cases hl : lookupJob q.jobs h with
      | none =>
          simp [PrintQueue.dequeue, QueueState.next_job, hp, hl,
            List.erase_cons_head]
      | some jh =>
          simp [PrintQueue.dequeue, QueueState.next_job, hp, hl,
            QueueState.move_to_active, List.erase_cons_head]

/-- A dequeue preserves the FIFO tracking invariant. -/
theorem fifoInv_dequeue {a b : String} {q : PrintQueue}
    (hinv : FifoInv a b q) (now : Nat) : FifoInv a b (q.dequeue now).2 := by
  obtain ⟨hra, hrb, hca, hcb, hsub⟩ := hinv
  obtain ⟨hpend, hjobs⟩ := dequeue_pending_tail q now
  refine ⟨by rw [hjobs]; exact hra, by rw [hjobs]; exact hrb, ?_, ?_, ?_⟩
  · rw [hpend]
    exact le_trans ((List.tail_sublist _).count_le a) hca
  · rw [hpend]
    exact le_trans ((List.tail_sublist _).count_le b) hcb
  · intro hmem
    rw [hpend] at hmem ⊢
    cases hp : q.state.pending with
    | nil => rw [hp] at hmem; simp at hmem
    | cons h t =>
        rw [hp] at hmem
        simp only [List.tail_cons] at hmem ⊢
        by_cases hha : h = a
        · subst hha
          rw [hp, List.count_cons_self] at hca
          have := List.count_pos_iff.mpr hmem
          omega
        · have hsubl := hsub (by rw [hp]; exact List.mem_cons_of_mem h hmem)
          rw [hp] at hsubl
          exact pair_sublist_of_cons hsubl hha

/-- `mark_completed` never touches pending and preserves record presence. -/
theorem mark_completed_pending_jobs (q : PrintQueue) (id : String) (now : Nat) :
    (q.mark_completed id now).2.state.pending = q.state.pending ∧
      ∀ id', (lookupJob (q.mark_completed id now).2.jobs id').isSome =
        (lookupJob q.jobs id').isSome := by
  cases hl : lookupJob q.jobs id with
  | none => simp [PrintQueue.mark_completed, hl]
  | some j =>
      constructor
      · simp only [PrintQueue.mark_completed, hl, QueueState.move_to_completed]
        split <;> rfl
      · intro id'
        simp only [PrintQueue.mark_completed, hl]
        by_cases h : id' = id
        · subst h
          simp [lookupJob_setJob, hl]
        · simp [lookupJob_setJob, h]

/-- `mark_failed` leaves pending unchanged or erases exactly the target id,
and preserves record presence. -/
theorem mark_failed_pending_jobs (q : PrintQueue) (id : String)
    (msg : Option String) (now : Nat) :
    ((q.mark_failed id msg now).2.state.pending = q.state.pending ∨
        (q.mark_failed id msg now).2.state.pending = q.state.pending.erase id) ∧
      ∀ id', (lookupJob (q.mark_failed id msg now).2.jobs id').isSome =
        (lookupJob q.jobs id').isSome := by
  cases hl : lookupJob q.jobs id with
  | none => simp [PrintQueue.mark_failed, hl]
  | some j =>
      constructor
      · simp only [PrintQueue.mark_failed, hl, QueueState.move_to_failed]
        by_cases ha : id ∈ q.state.active
        · simp only [ha, if_true]
          split <;> simp
        · by_cases hp : id ∈ q.state.pending
          · simp only [ha, hp, if_true, if_false]
            split <;> simp
          · simp only [ha, hp, if_false]
            split <;> simp
      · intro id'
        simp only [PrintQueue.mark_failed, hl]
        by_cases h : id' = id
        · subst h
          simp [lookupJob_setJob, hl]
        · simp [lookupJob_setJob, h]

/-- `mark_completed` preserves the FIFO tracking invariant. -/
theorem fifoInv_markCompleted {a b : String} {q : PrintQueue}
    (hinv : FifoInv a b q) (id : String) (now : Nat) :
    FifoInv a b (q.mark_completed id now).2 := by
  obtain ⟨hra, hrb, hca, hcb, hsub⟩ := hinv
  obtain ⟨hpend, hjobs⟩ := mark_completed_pending_jobs q id now
  exact ⟨by rw [hjobs]; exact hra, by rw [hjobs]; exact hrb,
    by rw [hpend]; exact hca, by rw [hpend]; exact hcb,
    by rw [hpend]; exact hsub⟩

/-- `mark_failed` on an id other than `a` and `b` preserves the FIFO
tracking invariant. -/
theorem fifoInv_markFailed {a b : String} {q : PrintQueue}
    (hinv : FifoInv a b q) (id : String) (msg : Option String) (now : Nat)
    (hia : id ≠ a) (hib : id ≠ b) :
    FifoInv a b (q.mark_failed id msg now).2 := by
  obtain ⟨hra, hrb, hca, hcb, hsub⟩ := hinv
  obtain ⟨hpend, hjobs⟩ := mark_failed_pending_jobs q id msg now
  refine ⟨by rw [hjobs]; exact hra, by rw [hjobs]; exact hrb, ?_, ?_, ?_⟩
  · rcases hpend with h | h <;> rw [h]
    · exact hca
    · exact le_trans ((List.erase_sublist id _).count_le a) hca
  · rcases hpend with h | h <;> rw [h]
    · exact hcb
    · exact le_trans ((List.erase_sublist id _).count_le b) hcb
  · intro hmem
    rcases hpend with h | h <;> rw [h] at hmem ⊢
    · exact hsub hmem
    · exact pair_sublist_erase hia hib (hsub (List.mem_of_mem_erase hmem))

/-- One FIFO-safe step preserves the tracking invariant. -/
theorem fifoInv_step {a b : String} {q q' : PrintQueue}
    (hstep : FifoStep a b q q') (hinv : FifoInv a b q) : FifoInv a b q' := by
  cases hstep with
  | enqueue j now => exact fifoInv_enqueueT hinv j now
  | dequeue now => exact fifoInv_dequeue hinv now
  | markCompleted id now => exact fifoInv_markCompleted hinv id now
  | markFailed id msg now ha hb => exact fifoInv_markFailed hinv id msg now ha hb

/-- Any sequence of FIFO-safe steps preserves the tracking invariant. -/
theorem fifoInv_reach {a b : String} {q q' : PrintQueue}
    (hsteps : Relation.ReflTransGen (FifoStep a b) q q') (hinv : FifoInv a b q) :
    FifoInv a b q' := by
  induction hsteps with
  | refl => exact hinv
  | tail _ hstep ih => exact fifoInv_step hstep ih

/-- C7: FIFO among priority-0 jobs.  If job `a` is pending (at most once,
with its record stored) and a fresh priority-0 PENDING job `jb` is enqueued
behind it, then after any sequence of enqueue/dequeue/mark operations that
never cancels (`mark_failed`) `a` or `jb`, whenever `a` is still pending,
`jb` is also still pending and strictly behind `a` — so `jb` can never be
dequeued before `a`: `a` is dequeued no later than `jb`, regardless of
interleaved priority>0 enqueues (which only insert in front of both). -/
theorem fifo_priority_zero_order_preserved
    (q0 : PrintQueue) (a : String) (jb : PrintJob) (now : Nat) (q' : PrintQueue)
    (hab : a ≠ jb.job_id)
    (hra : (lookupJob q0.jobs a).isSome = true)
    (hfresh : lookupJob q0.jobs jb.job_id = none)
    (hst : jb.status = PrintJobStatus.pending) (hpr : jb.priority = 0)
    (hmem : a ∈ q0.state.pending) (hcnt : q0.state.pending.count a ≤ 1)
    (hbp : jb.job_id ∉ q0.state.pending)
    (hsteps : Relation.ReflTransGen (FifoStep a jb.job_id) (enqueueT q0 jb now) q') :
    a ∈ q'.state.pending →
      jb.job_id ∈ q'.state.pending ∧
        List.Sublist [a, jb.job_id] q'.state.pending := by
  have h1 : enqueueT q0 jb now =
      { jobs := setJob q0.jobs jb.job_id jb,
        state := { q0.state with pending := q0.state.pending ++ [jb.job_id],
                                 last_modified := now } } := by
    simp [enqueueT, PrintQueue.enqueue, hfresh, hst, hpr, QueueState.add_job, hbp]
  have hinv0 : FifoInv a jb.job_id (enqueueT q0 jb now) := by
    rw [h1]
    refine ⟨?_, ?_, ?_, ?_, ?_⟩
    · rw [lookupJob_setJob, if_neg hab]; exact hra
    · rw [lookupJob_setJob, if_pos rfl]; simp
    · show (q0.state.pending ++ [jb.job_id]).count a ≤ 1
      rw [List.count_append]
      simpa [List.count_cons, hab] using hcnt
    · show (q0.state.pending ++ [jb.job_id]).count jb.job_id ≤ 1
      rw [List.count_append, List.count_eq_zero.mpr hbp]
      simp
    · intro _
      exact (List.singleton_sublist.mpr hmem).append (List.Sublist.refl [jb.job_id])
  have hinv' := fifoInv_reach hsteps hinv0
  intro hm
  obtain ⟨_, _, _, _, hsub⟩ := hinv'
  have hs := hsub hm
  exact ⟨hs.subset (by simp), hs⟩

/-- C7 witness: `jobA` pending, `jobB` enqueued behind it at priority 0, a
priority-10 job enqueued afterwards; `jobA` is still ahead of `jobB`. -/
theorem fifo_priority_zero_order_witness :
    ("jobA" ≠ jobB.job_id ∧ (lookupJob queuePendingA.jobs "jobA").isSome = true ∧
        lookupJob queuePendingA.jobs jobB.job_id = none ∧
        jobB.status = PrintJobStatus.pending ∧ jobB.priority = 0 ∧
        "jobA" ∈ queuePendingA.state.pending ∧
        queuePendingA.state.pending.count "jobA" ≤ 1 ∧
        jobB.job_id ∉ queuePendingA.state.pending) ∧
      ("jobA" ∈ (enqueueT (enqueueT queuePendingA jobB 2) jobHi 3).state.pending →
        jobB.job_id ∈ (enqueueT (enqueueT queuePendingA jobB 2) jobHi 3).state.pending ∧
          List.Sublist ["jobA", jobB.job_id]
            (enqueueT (enqueueT queuePendingA jobB 2) jobHi 3).state.pending) :=
  ⟨⟨by decide, by decide, by decide, by decide, by decide, by decide, by decide,
      by decide⟩,
    fifo_priority_zero_order_preserved queuePendingA "jobA" jobB 2
      (enqueueT (enqueueT queuePendingA jobB 2) jobHi 3)
      (by decide) (by decide) (by decide) (by decide) (by decide) (by decide)
      (by decide) (by decide)
      (Relation.ReflTransGen.single
        (FifoStep.enqueue (enqueueT queuePendingA jobB 2) jobHi 3))⟩

/-! ## C2: partition invariant -/

/-- C2 counterexample: enqueue a pending job, dequeue it, `mark_completed`,
then `mark_failed` — the id ends up in both the completed and the failed
list, so it is not in exactly one of the four lists. -/
theorem completed_then_failed_double_listing :
    c2Queue.state.memCount "jobA" = 2 ∧
      "jobA" ∈ c2Queue.state.completed ∧ "jobA" ∈ c2Queue.state.failed ∧
      (lookupJob c2Queue.jobs "jobA").isSome = true := by
  exact ⟨by decide, by decide, by decide, by decide⟩

theorem memCount_congr {s s' : QueueState} (id : String)
    (hp : id ∈ s'.pending ↔ id ∈ s.pending) (ha : id ∈ s'.active ↔ id ∈ s.active)
    (hc : id ∈ s'.completed ↔ id ∈ s.completed)
    (hf : id ∈ s'.failed ↔ id ∈ s.failed) :
    s'.memCount id = s.memCount id := by
  unfold QueueState.memCount
  rw [if_congr hp rfl rfl, if_congr ha rfl rfl, if_congr hc rfl rfl,
    if_congr hf rfl rfl]

theorem memCount_eq_zero_iff (s : QueueState) (id : String) :
    s.memCount id = 0 ↔
      id ∉ s.pending ∧ id ∉ s.active ∧ id ∉ s.completed ∧ id ∉ s.failed := by
  unfold QueueState.memCount
  split_ifs <;> simp_all

theorem memCount_pending_only {s : QueueState} {id : String}
    (hp : id ∈ s.pending) (ha : id ∉ s.active) (hc : id ∉ s.completed)
    (hf : id ∉ s.failed) : s.memCount id = 1 := by
  simp [QueueState.memCount, hp, ha, hc, hf]

theorem memCount_active_only {s : QueueState} {id : String}
    (hp : id ∉ s.pending) (ha : id ∈ s.active) (hc : id ∉ s.completed)
    (hf : id ∉ s.failed) : s.memCount id = 1 := by
  simp [QueueState.memCount, hp, ha, hc, hf]

theorem memCount_completed_only {s : QueueState} {id : String}
    (hp : id ∉ s.pending) (ha : id ∉ s.active) (hc : id ∈ s.completed)
    (hf : id ∉ s.failed) : s.memCount id = 1 := by
  simp [QueueState.memCount, hp, ha, hc, hf]

theorem memCount_failed_only {s : QueueState} {id : String}
    (hp : id ∉ s.pending) (ha : id ∉ s.active) (hc : id ∉ s.completed)
    (hf : id ∈ s.failed) : s.memCount id = 1 := by
  simp [QueueState.memCount, hp, ha, hc, hf]

/-- From a unit membership count, each membership excludes the other three. -/
theorem mem_unique_of_memCount_one {s : QueueState} {id : String}
    (h1 : s.memCount id = 1) :
    (id ∈ s.pending → id ∉ s.active ∧ id ∉ s.completed ∧ id ∉ s.failed) ∧
      (id ∈ s.active → id ∉ s.pending ∧ id ∉ s.completed ∧ id ∉ s.failed) ∧
      (id ∈ s.completed → id ∉ s.pending ∧ id ∉ s.active ∧ id ∉ s.failed) ∧
      (id ∈ s.failed → id ∉ s.pending ∧ id ∉ s.active ∧ id ∉ s.completed) := by
  unfold QueueState.memCount at h1
  split_ifs at h1 <;> simp_all

theorem memCount_ne_zero_of_mem {s : QueueState} {id : String}
    (h : id ∈ s.pending ∨ id ∈ s.active ∨ id ∈ s.completed ∨ id ∈ s.failed) :
    s.memCount id ≠ 0 := by
  rw [Ne, memCount_eq_zero_iff]
  tauto

/-- A fresh non-RETRYING enqueue stores the record and adds the id to exactly
one list: pending (front or back), active, completed or failed. -/
theorem enqueueT_fresh_cases (q : PrintQueue) (j : PrintJob) (now : Nat)
    (hd : ¬ (lookupJob q.jobs j.job_id).isSome = true)
    (hna : j.job_id ∉ q.state.active) (hnc : j.job_id ∉ q.state.completed)
    (hnf : j.job_id ∉ q.state.failed) (hnp : j.job_id ∉ q.state.pending)
    (hnr : j.status ≠ PrintJobStatus.retrying) :
    enqueueT q j now =
        { jobs := setJob q.jobs j.job_id j,
          state := { q.state with pending := j.job_id :: q.state.pending } } ∨
      enqueueT q j now =
        { jobs := setJob q.jobs j.job_id j,
          state := { q.state with pending := q.state.pending ++ [j.job_id],
                                  last_modified := now } } ∨
      enqueueT q j now =
        { jobs := setJob q.jobs j.job_id j,
          state := { q.state with active := q.state.active ++ [j.job_id] } } ∨
      enqueueT q j now =
        { jobs := setJob q.jobs j.job_id j,
          state := { q.state with completed := q.state.completed ++ [j.job_id] } } ∨
      enqueueT q j now =
        { jobs := setJob q.jobs j.job_id j,
          state := { q.state with failed := q.state.failed ++ [j.job_id] } } := by
  cases hst : j.status with
  | pending =>
      by_cases hp : j.priority > 0
      · exact Or.inl (by simp [enqueueT, PrintQueue.enqueue, hd, hst, hp])
      · exact Or.inr (Or.inl (by
          simp [enqueueT, PrintQueue.enqueue, hd, hst, hp, QueueState.add_job, hnp]))
  | uploading =>
      exact Or.inr (Or.inr (Or.inl (by
        simp [enqueueT, PrintQueue.enqueue, hd, hst, hna])))
  | starting =>
      exact Or.inr (Or.inr (Or.inl (by
        simp [enqueueT, PrintQueue.enqueue, hd, hst, hna])))
  | printing =>
      exact Or.inr (Or.inr (Or.inl (by
        simp [enqueueT, PrintQueue.enqueue, hd, hst, hna])))
  | retrying => exact absurd hst hnr
  | completed =>
      exact Or.inr (Or.inr (Or.inr (Or.inl (by
        simp [enqueueT, PrintQueue.enqueue, hd, hst, hnc]))))
  | failed =>
      exact Or.inr (Or.inr (Or.inr (Or.inr (by
        simp [enqueueT, PrintQueue.enqueue, hd, hst, hnf]))))
  | cancelled =>
      exact Or.inr (Or.inr (Or.inr (Or.inr (by
        simp [enqueueT, PrintQueue.enqueue, hd, hst, hnf]))))
  | error =>
      exact Or.inr (Or.inr (Or.inr (Or.inr (by
        simp [enqueueT, PrintQueue.enqueue, hd, hst, hnf]))))

/-- A non-RETRYING enqueue preserves queue-level well-formedness. -/
theorem invQ_enqueueT {q : PrintQueue} (hinv : InvQ q) (j : PrintJob) (now : Nat)
    (hnr : j.status ≠ PrintJobStatus.retrying) : InvQ (enqueueT q j now) := by
  by_cases hd : (lookupJob q.jobs j.job_id).isSome = true
  · have hq : enqueueT q j now = q := by
      simp [enqueueT, PrintQueue.enqueue, hd]
    rw [hq]; exact hinv
  · have h0 : q.state.memCount j.job_id = 0 := by
      by_contra h
      exact hd (hinv.listed_rec _ h)
    obtain ⟨hnp, hna, hnc, hnf⟩ := (memCount_eq_zero_iff _ _).mp h0
    have hlook : ∀ id', lookupJob (setJob q.jobs j.job_id j) id' =
        if id' = j.job_id then some j else lookupJob q.jobs id' := fun id' =>
      lookupJob_setJob q.jobs j.job_id j id'
    rcases enqueueT_fresh_cases q j now hd hna hnc hnf hnp hnr with h | h | h | h | h <;>
      rw [h] <;> clear h
    · refine ⟨fun id hid => ?_, fun id hid => ?_, ?_, hinv.nda, hinv.ndc, hinv.ndf⟩
      · rw [hlook] at hid
        by_cases he : id = j.job_id
        · subst he
          exact memCount_pending_only (List.mem_cons_self _ _) hna hnc hnf
        · rw [if_neg he] at hid
          simpa [QueueState.memCount, List.mem_cons, he] using hinv.rec_one id hid
      · by_cases he : id = j.job_id
        · subst he; rw [hlook, if_pos rfl]; rfl
        · rw [hlook, if_neg he]
          refine hinv.listed_rec id ?_
          simpa [QueueState.memCount, List.mem_cons, he] using hid
      · exact List.nodup_cons.mpr ⟨hnp, hinv.ndp⟩
    · refine ⟨fun id hid => ?_, fun id hid => ?_, ?_, hinv.nda, hinv.ndc, hinv.ndf⟩
      · rw [hlook] at hid
        by_cases he : id = j.job_id
        · subst he
          exact memCount_pending_only (by simp) hna hnc hnf
        · rw [if_neg he] at hid
          simpa [QueueState.memCount, List.mem_append, he] using hinv.rec_one id hid
      · by_cases he : id = j.job_id
        · subst he; rw [hlook, if_pos rfl]; rfl
        · rw [hlook, if_neg he]
          refine hinv.listed_rec id ?_
          simpa [QueueState.memCount, List.mem_append, he] using hid
      · simp [List.nodup_append, hinv.ndp, hnp]
    · refine ⟨fun id hid => ?_, fun id hid => ?_, hinv.ndp, ?_, hinv.ndc, hinv.ndf⟩
      · rw [hlook] at hid
        by_cases he : id = j.job_id
        · subst he
          exact memCount_active_only hnp (by simp) hnc hnf
        · rw [if_neg he] at hid
          simpa [QueueState.memCount, List.mem_append, he] using hinv.rec_one id hid
      · by_cases he : id = j.job_id
        · subst he; rw [hlook, if_pos rfl]; rfl
        · rw [hlook, if_neg he]
          refine hinv.listed_rec id ?_
          simpa [QueueState.memCount, List.mem_append, he] using hid
      · simp [List.nodup_append, hinv.nda, hna]
    · refine ⟨fun id hid => ?_, fun id hid => ?_, hinv.ndp, hinv.nda, ?_, hinv.ndf⟩
      · rw [hlook] at hid
        by_cases he : id = j.job_id
        · subst he
          exact memCount_completed_only hnp hna (by simp) hnf
        · rw [if_neg he] at hid
          simpa [QueueState.memCount, List.mem_append, he] using hinv.rec_one id hid
      · by_cases he : id = j.job_id
        · subst he; rw [hlook, if_pos rfl]; rfl
        · rw [hlook, if_neg he]
          refine hinv.listed_rec id ?_
          simpa [QueueState.memCount, List.mem_append, he] using hid
      · simp [List.nodup_append, hinv.ndc, hnc]
    · refine ⟨fun id hid => ?_, fun id hid => ?_, hinv.ndp, hinv.nda, hinv.ndc, ?_⟩
      · rw [hlook] at hid
        by_cases he : id = j.job_id
        · subst he
          exact memCount_failed_only hnp hna hnc (by simp)
        · rw [if_neg he] at hid
          simpa [QueueState.memCount, List.mem_append, he] using hinv.rec_one id hid
      · by_cases he : id = j.job_id
        · subst he; rw [hlook, if_pos rfl]; rfl
        · rw [hlook, if_neg he]
          refine hinv.listed_rec id ?_
          simpa [QueueState.memCount, List.mem_append, he] using hid
      · simp [List.nodup_append, hinv.ndf, hnf]

/-- A dequeue preserves queue-level well-formedness. -/
theorem invQ_dequeue {q : PrintQueue} (hinv : InvQ q) (now : Nat) :
    InvQ (q.dequeue now).2 := by
  cases hp : q.state.pending with
  | nil =>
      have hq : (q.dequeue now).2 = q := by
        simp [PrintQueue.dequeue, QueueState.next_job, hp]
      rw [hq]; exact hinv
  | cons h t =>
      have hhm : h ∈ q.state.pending := by rw [hp]; exact List.mem_cons_self h t
      have hrec : (lookupJob q.jobs h).isSome = true :=
        hinv.listed_rec h (memCount_ne_zero_of_mem (Or.inl hhm))
      obtain ⟨jh, hjh⟩ := Option.isSome_iff_exists.mp hrec
      have h1 := hinv.rec_one h hrec
      obtain ⟨hna, hnc, hnf⟩ := (mem_unique_of_memCount_one h1).1 hhm
      have hnt : h ∉ t := (List.nodup_cons.mp (hp ▸ hinv.ndp)).1
      have hres : (q.dequeue now).2 =
          { q with state := { q.state with pending := t,
                                           active := q.state.active ++ [h],
                                           last_modified := now } } := by
        simp [PrintQueue.dequeue, QueueState.next_job, hp, hjh,
          QueueState.move_to_active, List.erase_cons_head]
      rw [hres]
      refine ⟨fun id hid => ?_, fun id hid => ?_, ?_, ?_, hinv.ndc, hinv.ndf⟩
      · by_cases he : id = h
        · subst he
          exact memCount_active_only hnt (by simp) hnc hnf
        · have hpe : id ∈ t ↔ id ∈ q.state.pending := by
            rw [hp]; simp [List.mem_cons, he]
          simpa [QueueState.memCount, List.mem_append, he, hpe] using
            hinv.rec_one id hid
      · by_cases he : id = h
        · subst he; exact hrec
        · refine hinv.listed_rec id ?_
          have hpe : id ∈ t ↔ id ∈ q.state.pending := by
            rw [hp]; simp [List.mem_cons, he]
          simpa [QueueState.memCount, List.mem_append, he, hpe] using hid
      · exact (List.nodup_cons.mp (hp ▸ hinv.ndp)).2
      · simp [List.nodup_append, hinv.nda, hna]

/-- `mark_completed` preserves queue-level well-formedness. -/
theorem invQ_markCompleted {q : PrintQueue} (hinv : InvQ q) (id : String)
    (now : Nat) : InvQ (q.mark_completed id now).2 := by
  cases hl : lookupJob q.jobs id with
  | none =>
      have hq : (q.mark_completed id now).2 = q := by
        simp [PrintQueue.mark_completed, hl]
      rw [hq]; exact hinv
  | some j =>
      have hrec : (lookupJob q.jobs id).isSome = true := by rw [hl]; rfl
      have h1 := hinv.rec_one id hrec
      have hlook := fun id' =>
        lookupJob_setJob q.jobs id { j with status := PrintJobStatus.completed } id'
      by_cases ha : id ∈ q.state.active
      · obtain ⟨hnp, hnc, hnf⟩ := (mem_unique_of_memCount_one h1).2.1 ha
        have hres : (q.mark_completed id now).2 =
            { jobs := setJob q.jobs id { j with status := PrintJobStatus.completed },
              state := { q.state with active := q.state.active.erase id,
                                      completed := q.state.completed ++ [id],
                                      last_modified := now } } := by
          simp [PrintQueue.mark_completed, hl, QueueState.move_to_completed, ha]
        rw [hres]
        have hnae : id ∉ q.state.active.erase id := fun hmm =>
          absurd ((List.Nodup.mem_erase_iff hinv.nda).mp hmm).1 (by simp)
        refine ⟨fun id' hid => ?_, fun id' hid => ?_, hinv.ndp,
          hinv.nda.erase id, ?_, hinv.ndf⟩
        · rw [hlook] at hid
          by_cases he : id' = id
          · subst he
            exact memCount_completed_only hnp hnae (by simp) hnf
          · rw [if_neg he] at hid
            have hae : id' ∈ q.state.active.erase id ↔ id' ∈ q.state.active :=
              List.mem_erase_of_ne he
            simpa [QueueState.memCount, List.mem_append, he, hae] using
              hinv.rec_one id' hid
        · by_cases he : id' = id
          · subst he; rw [hlook, if_pos rfl]; rfl
          · rw [hlook, if_neg he]
            refine hinv.listed_rec id' ?_
            have hae : id' ∈ q.state.active.erase id ↔ id' ∈ q.state.active :=
              List.mem_erase_of_ne he
            simpa [QueueState.memCount, List.mem_append, he, hae] using hid
        · simp [List.nodup_append, hinv.ndc, hnc]
      · have hres : (q.mark_completed id now).2 =
            { jobs := setJob q.jobs id { j with status := PrintJobStatus.completed },
              state := q.state } := by
          simp [PrintQueue.mark_completed, hl, QueueState.move_to_completed, ha]
        rw [hres]
        refine ⟨fun id' hid => ?_, fun id' hid => ?_, hinv.ndp, hinv.nda,
          hinv.ndc, hinv.ndf⟩
        · rw [hlook] at hid
          by_cases he : id' = id
          · subst he; exact h1
          · rw [if_neg he] at hid
            exact hinv.rec_one id' hid
        · by_cases he : id' = id
          · subst he; rw [hlook, if_pos rfl]; rfl
          · rw [hlook, if_neg he]
            exact hinv.listed_rec id' hid


/-- `mark_failed` on an id not currently in the completed list preserves
queue-level well-formedness. -/
theorem invQ_markFailed {q : PrintQueue} (hinv : InvQ q) (id : String)
    (msg : Option String) (now : Nat) (hsafe : id ∉ q.state.completed) :
    InvQ (q.mark_failed id msg now).2 := by
  cases hl : lookupJob q.jobs id with
  | none =>
      have hq : (q.mark_failed id msg now).2 = q := by
        simp [PrintQueue.mark_failed, hl]
      rw [hq]; exact hinv
  | some j =>
      have hrec : (lookupJob q.jobs id).isSome = true := by rw [hl]; rfl
      have h1 := hinv.rec_one id hrec
      have hshape : ∃ j2, (q.mark_failed id msg now).2 =
          { jobs := setJob q.jobs id j2,
            state := (q.state.move_to_failed id now).2 } := by
        cases msg with
        | none =>
            exact ⟨{ j with status := PrintJobStatus.failed },
              by simp [PrintQueue.mark_failed, hl]⟩
        | some m =>
            by_cases hm : m = ""
            · exact ⟨{ j with status := PrintJobStatus.failed },
                by simp [PrintQueue.mark_failed, hl, hm]⟩
            · refine ⟨{ j with status := PrintJobStatus.failed, error_message := some m }, ?_⟩
              simp [PrintQueue.mark_failed, hl, hm]
      obtain ⟨j2, hres⟩ := hshape
      have hlook := fun id' => lookupJob_setJob q.jobs id j2 id'
      rw [hres]
      by_cases ha : id ∈ q.state.active
      · obtain ⟨hnp, hnc, hnf⟩ := (mem_unique_of_memCount_one h1).2.1 ha
        have hmv : (q.state.move_to_failed id now).2 =
            { q.state with active := q.state.active.erase id,
                           failed := q.state.failed ++ [id],
                           last_modified := now } := by
          simp [QueueState.move_to_failed, ha, hnf]
        rw [hmv]
        have hnae : id ∉ q.state.active.erase id := fun hmm =>
          absurd ((List.Nodup.mem_erase_iff hinv.nda).mp hmm).1 (by simp)
        refine ⟨fun id' hid => ?_, fun id' hid => ?_, hinv.ndp,
          hinv.nda.erase id, hinv.ndc, ?_⟩
        · rw [hlook] at hid
          by_cases he : id' = id
          · subst he
            exact memCount_failed_only hnp hnae hnc (by simp)
          · rw [if_neg he] at hid
            have hae : id' ∈ q.state.active.erase id ↔ id' ∈ q.state.active :=
              List.mem_erase_of_ne he
            simpa [QueueState.memCount, List.mem_append, he, hae] using
              hinv.rec_one id' hid
        · by_cases he : id' = id
          · subst he; rw [hlook, if_pos rfl]; rfl
          · rw [hlook, if_neg he]
            refine hinv.listed_rec id' ?_
            have hae : id' ∈ q.state.active.erase id ↔ id' ∈ q.state.active :=
              List.mem_erase_of_ne he
            simpa [QueueState.memCount, List.mem_append, he, hae] using hid
        · simp [List.nodup_append, hinv.ndf, hnf]
      · by_cases hpd : id ∈ q.state.pending
        · obtain ⟨_, hnc, hnf⟩ := (mem_unique_of_memCount_one h1).1 hpd
          have hmv : (q.state.move_to_failed id now).2 =
              { q.state with pending := q.state.pending.erase id,
                             failed := q.state.failed ++ [id],
                             last_modified := now } := by
            simp [QueueState.move_to_failed, ha, hpd, hnf]
          rw [hmv]
          have hnpe : id ∉ q.state.pending.erase id := fun hmm =>
            absurd ((List.Nodup.mem_erase_iff hinv.ndp).mp hmm).1 (by simp)
          refine ⟨fun id' hid => ?_, fun id' hid => ?_, hinv.ndp.erase id,
            hinv.nda, hinv.ndc, ?_⟩
          · rw [hlook] at hid
            by_cases he : id' = id
            · subst he
              exact memCount_failed_only hnpe ha hnc (by simp)
            · rw [if_neg he] at hid
              have hpe : id' ∈ q.state.pending.erase id ↔ id' ∈ q.state.pending :=
                List.mem_erase_of_ne he
              simpa [QueueState.memCount, List.mem_append, he, hpe] using
                hinv.rec_one id' hid
          · by_cases he : id' = id
            · subst he; rw [hlook, if_pos rfl]; rfl
            · rw [hlook, if_neg he]
              refine hinv.listed_rec id' ?_
              have hpe : id' ∈ q.state.pending.erase id ↔ id' ∈ q.state.pending :=
                List.mem_erase_of_ne he
              simpa [QueueState.memCount, List.mem_append, he, hpe] using hid
          · simp [List.nodup_append, hinv.ndf, hnf]
        · have hfm : id ∈ q.state.failed := by
            by_contra hnf2
            have h0 := (memCount_eq_zero_iff q.state id).mpr ⟨hpd, ha, hsafe, hnf2⟩
            omega
          have hmv : (q.state.move_to_failed id now).2 = q.state := by
            simp [QueueState.move_to_failed, ha, hpd, hfm]
          rw [hmv]
          refine ⟨fun id' hid => ?_, fun id' hid => ?_, hinv.ndp, hinv.nda,
            hinv.ndc, hinv.ndf⟩
          · rw [hlook] at hid
            by_cases he : id' = id
            · subst he; exact h1
            · rw [if_neg he] at hid
              exact hinv.rec_one id' hid
          · by_cases he : id' = id
            · subst he; rw [hlook, if_pos rfl]; rfl
            · rw [hlook, if_neg he]
              exact hinv.listed_rec id' hid

/-- One restricted queue operation preserves well-formedness. -/
theorem invQ_stepSafe {q q' : PrintQueue} (hinv : InvQ q)
    (hstep : QStepSafe q q') : InvQ q' := by
  cases hstep with
  | enqueue j now h => exact invQ_enqueueT hinv j now h
  | dequeue now => exact invQ_dequeue hinv now
  | markCompleted id now => exact invQ_markCompleted hinv id now
  | markFailed id msg now h => exact invQ_markFailed hinv id msg now h

/-- The empty queue is well-formed. -/
theorem invQ_empty : InvQ emptyQueue := by
  constructor <;> intros <;> simp_all [emptyQueue, lookupJob, QueueState.memCount]

/-- Well-formedness holds in every reachable state of the restricted
operations. -/
theorem invQ_reachSafe {q : PrintQueue} (hq : ReachQSafe q) : InvQ q := by
  induction hq with
  | refl => exact invQ_empty
  | tail _ hstep ih => exact invQ_stepSafe ih hstep

/-- C2 amended: for every sequence of enqueue/dequeue/mark_completed/
mark_failed operations from a fresh queue in which no enqueued job has
status RETRYING and `mark_failed` is never applied to an id currently in the
completed list, every job id held in the record map is in exactly one of the
four lists, and every listed id has a record.  (Without those two side
conditions the claim fails: see the double-listing counterexample.) -/
theorem reachable_partition_invariant_safe_ops (q : PrintQueue)
    (hq : ReachQSafe q) :
    (∀ id, (lookupJob q.jobs id).isSome = true → q.state.memCount id = 1) ∧
      (∀ id, q.state.memCount id ≠ 0 → (lookupJob q.jobs id).isSome = true) :=
  ⟨(invQ_reachSafe hq).rec_one, (invQ_reachSafe hq).listed_rec⟩

/-- C2 amended witness: after enqueueing a job and dequeuing it, its id sits
in exactly one list. -/
theorem reachable_partition_invariant_witness :
    (lookupJob ((enqueueT emptyQueue jobA 1).dequeue 2).2.jobs "jobA").isSome = true ∧
      ((enqueueT emptyQueue jobA 1).dequeue 2).2.state.memCount "jobA" = 1 :=
  ⟨by decide,
    (reachable_partition_invariant_safe_ops ((enqueueT emptyQueue jobA 1).dequeue 2).2
        (Relation.ReflTransGen.tail
          (Relation.ReflTransGen.single
            (QStepSafe.enqueue emptyQueue jobA 1 (by decide)))
          (QStepSafe.dequeue (enqueueT emptyQueue jobA 1) 2))).1
      "jobA" (by decide)⟩


/-! ## C4: retry bound and terminal FAILED -/

theorem setJob_setJob (m : List (String × PrintJob)) (id : String)
    (x y : PrintJob) : setJob (setJob m id x) id y = setJob m id y := by
  induction m with
  | nil => simp [setJob]
  | cons p rest ih =>
      obtain ⟨k, v⟩ := p
      by_cases hk : k = id <;> simp [setJob, hk, ih]

/-- Agent well-formedness depends only on the record map and the pending and
active lists. -/
theorem invA_of_components {q q' : PrintQueue} (hinv : InvA q')
    (hj : q.jobs = q'.jobs) (hp : q.state.pending = q'.state.pending)
    (ha : q.state.active = q'.state.active) : InvA q := by
  refine ⟨?_, ?_, ?_, ?_, ?_, ?_⟩
  · rw [hp]; exact hinv.ndp
  · rw [ha]; exact hinv.nda
  · rw [hj]; exact hinv.key_ok
  · rw [hp, hj]; exact hinv.pending_ok
  · rw [ha, hj]; exact hinv.active_ok
  · rw [hj]; exact hinv.rc_bound

/-- Replacing one record preserves agent well-formedness when the new record
is keyed correctly, respects the retry bound, and keeps the status facts of
whatever list its id is in. -/
theorem invA_setJob {q : PrintQueue} (hinv : InvA q) (id : String)
    (jOut : PrintJob) (hkey : jOut.job_id = id)
    (hrc : jOut.retry_count ≤ max jOut.max_retries 1)
    (hpend : id ∈ q.state.pending →
      jOut.status = PrintJobStatus.pending ∧ jOut.retry_count = 0)
    (hact : id ∈ q.state.active → jOut.status = PrintJobStatus.printing) :
    InvA { jobs := setJob q.jobs id jOut, state := q.state } := by
  refine ⟨hinv.ndp, hinv.nda, ?_, ?_, ?_, ?_⟩
  · intro id' j hj
    rw [lookupJob_setJob] at hj
    by_cases he : id' = id
    · rw [if_pos he] at hj
      cases hj
      rw [hkey, he]
    · rw [if_neg he] at hj
      exact hinv.key_ok id' j hj
  · intro id' hm
    by_cases he : id' = id
    · subst he
      exact ⟨jOut, by rw [lookupJob_setJob, if_pos rfl], (hpend hm).1, (hpend hm).2⟩
    · obtain ⟨j, hj, h2, h3⟩ := hinv.pending_ok id' hm
      exact ⟨j, by rw [lookupJob_setJob, if_neg he]; exact hj, h2, h3⟩
  · intro id' hm
    by_cases he : id' = id
    · subst he
      exact ⟨jOut, by rw [lookupJob_setJob, if_pos rfl], hact hm⟩
    · obtain ⟨j, hj, h2⟩ := hinv.active_ok id' hm
      exact ⟨j, by rw [lookupJob_setJob, if_neg he]; exact hj, h2⟩
  · intro id' j hj
    rw [lookupJob_setJob] at hj
    by_cases he : id' = id
    · rw [if_pos he] at hj
      cases hj
      exact hrc
    · rw [if_neg he] at hj
      exact hinv.rc_bound id' j hj

/-- Erasing any id from pending preserves agent well-formedness. -/
theorem invA_pending_erase {q : PrintQueue} (hinv : InvA q) (id : String) :
    InvA { q with state := { q.state with pending := q.state.pending.erase id } } := by
  refine ⟨hinv.ndp.erase id, hinv.nda, hinv.key_ok, ?_, hinv.active_ok,
    hinv.rc_bound⟩
  intro id' hm
  exact hinv.pending_ok id' (List.mem_of_mem_erase hm)

/-- Erasing any id from active preserves agent well-formedness. -/
theorem invA_active_erase {q : PrintQueue} (hinv : InvA q) (id : String) :
    InvA { q with state := { q.state with active := q.state.active.erase id } } := by
  refine ⟨hinv.ndp, hinv.nda.erase id, hinv.key_ok, hinv.pending_ok, ?_,
    hinv.rc_bound⟩
  intro id' hm
  exact hinv.active_ok id' (List.mem_of_mem_erase hm)

/-- Prepending a fresh PENDING id with a stored zero-retry record preserves
agent well-formedness. -/
theorem invA_pending_cons {q : PrintQueue} (hinv : InvA q) (id : String)
    (hrec : ∃ j, lookupJob q.jobs id = some j ∧
      j.status = PrintJobStatus.pending ∧ j.retry_count = 0)
    (hnp : id ∉ q.state.pending) :
    InvA { q with state := { q.state with pending := id :: q.state.pending } } := by
  refine ⟨List.nodup_cons.mpr ⟨hnp, hinv.ndp⟩, hinv.nda, hinv.key_ok, ?_,
    hinv.active_ok, hinv.rc_bound⟩
  intro id' hm
  rcases List.mem_cons.mp hm with he | hm'
  · subst he; exact hrec
  · exact hinv.pending_ok id' hm'

/-- Appending a fresh PENDING id with a stored zero-retry record preserves
agent well-formedness. -/
theorem invA_pending_append {q : PrintQueue} (hinv : InvA q) (id : String)
    (hrec : ∃ j, lookupJob q.jobs id = some j ∧
      j.status = PrintJobStatus.pending ∧ j.retry_count = 0)
    (hnp : id ∉ q.state.pending) :
    InvA { q with state := { q.state with pending := q.state.pending ++ [id] } } := by
  refine ⟨by simp [List.nodup_append, hinv.ndp, hnp], hinv.nda, hinv.key_ok, ?_,
    hinv.active_ok, hinv.rc_bound⟩
  intro id' hm
  rcases List.mem_append.mp hm with hm' | hm'
  · exact hinv.pending_ok id' hm'
  · simp only [List.mem_singleton] at hm'
    subst hm'; exact hrec

/-- Appending an id with a stored PRINTING record to active preserves agent
well-formedness. -/
theorem invA_active_append {q : PrintQueue} (hinv : InvA q) (id : String)
    (hrec : ∃ j, lookupJob q.jobs id = some j ∧
      j.status = PrintJobStatus.printing)
    (hna : id ∉ q.state.active) :
    InvA { q with state := { q.state with active := q.state.active ++ [id] } } := by
  refine ⟨hinv.ndp, by simp [List.nodup_append, hinv.nda, hna], hinv.key_ok,
    hinv.pending_ok, ?_, hinv.rc_bound⟩
  intro id' hm
  rcases List.mem_append.mp hm with hm' | hm'
  · exact hinv.active_ok id' hm'
  · simp only [List.mem_singleton] at hm'
    subst hm'; exact hrec


/-- Dequeue on a non-empty pending list whose head has a record. -/
theorem dequeue_some_char {q : PrintQueue} {h : String} {t : List String}
    {jh : PrintJob} (hp : q.state.pending = h :: t)
    (hjh : lookupJob q.jobs h = some jh) (now : Nat) :
    q.dequeue now = (some jh,
      { q with state := { q.state with pending := t,
                                       active := q.state.active ++ [h],
                                       last_modified := now } }) := by
  simp [PrintQueue.dequeue, QueueState.next_job, hp, hjh,
    QueueState.move_to_active, List.erase_cons_head]

/-- A failing dispatch iteration on an empty queue does nothing. -/
theorem procFail_empty (q : PrintQueue) (step : FailStep) (msg : String)
    (now : Nat) (hp : q.state.pending = []) :
    _process_next_job_failing q step msg now = q := by
  simp [_process_next_job_failing, PrintQueue.dequeue, QueueState.next_job, hp]

/-- A successful dispatch iteration on an empty queue does nothing. -/
theorem procOk_empty (q : PrintQueue) (now : Nat) (hp : q.state.pending = []) :
    _process_next_job_ok q now = q := by
  simp [_process_next_job_ok, PrintQueue.dequeue, QueueState.next_job, hp]

/-- A failing dispatch iteration dequeues the head job, increments its retry
count once, and marks it FAILED — the RETRYING branch never fires because
`can_retry()` sees the UPLOADING/STARTING status. -/
theorem procFail_char {q : PrintQueue} {h : String} {t : List String}
    {jh : PrintJob} (hp : q.state.pending = h :: t)
    (hjh : lookupJob q.jobs h = some jh) (hid : jh.job_id = h)
    (hna : h ∉ q.state.active) (step : FailStep) (msg : String) (now : Nat) :
    _process_next_job_failing q step msg now =
      { jobs := setJob q.jobs h
          { jh with status := PrintJobStatus.failed,
                    error_message := some msg,
                    retry_count := jh.retry_count + 1 },
        state := { q.state with
          pending := t,
          failed := if h ∈ q.state.failed then q.state.failed
            else q.state.failed ++ [h],
          last_modified := now } } := by
  have hdq := dequeue_some_char hp hjh now
  have he1 : (q.state.active ++ [h]).erase h = q.state.active := by
    rw [List.erase_append_right _ hna]; simp
  cases step <;>
    by_cases hf : h ∈ q.state.failed <;>
      by_cases hm : msg = "" <;>
        simp [_process_next_job_failing, hdq, updateT, PrintQueue.update_job,
          lookupJob_setJob, hid, hjh, _handle_job_failure, PrintJob.can_retry,
          setJob_setJob, PrintQueue.mark_failed, QueueState.move_to_failed,
          he1, hf, hm]

/-- A successful dispatch iteration dequeues the head job and drives it to
PRINTING with `started_at` stamped. -/
theorem procOk_char {q : PrintQueue} {h : String} {t : List String}
    {jh : PrintJob} (hp : q.state.pending = h :: t)
    (hjh : lookupJob q.jobs h = some jh) (hid : jh.job_id = h) (now : Nat) :
    _process_next_job_ok q now =
      { jobs := setJob q.jobs h
          { jh with status := PrintJobStatus.printing, started_at := some now },
        state := { q.state with pending := t,
                                active := q.state.active ++ [h],
                                last_modified := now } } := by
  have hdq := dequeue_some_char hp hjh now
  simp [_process_next_job_ok, hdq, updateT, PrintQueue.update_job,
    lookupJob_setJob, hid, hjh, setJob_setJob]


/-- Job submission preserves agent well-formedness. -/
theorem invA_submit {q : PrintQueue} (hinv : InvA q) (j : PrintJob) (now : Nat)
    (hs : j.status = PrintJobStatus.pending) (hr : j.retry_count = 0) :
    InvA (enqueueT q j now) := by
  by_cases hd : (lookupJob q.jobs j.job_id).isSome = true
  · have hq : enqueueT q j now = q := by simp [enqueueT, PrintQueue.enqueue, hd]
    rw [hq]; exact hinv
  · have hnp : j.job_id ∉ q.state.pending := by
      intro hm
      obtain ⟨jj, hjj, _, _⟩ := hinv.pending_ok _ hm
      exact hd (by rw [hjj]; rfl)
    have hna : j.job_id ∉ q.state.active := by
      intro hm
      obtain ⟨jj, hjj, _⟩ := hinv.active_ok _ hm
      exact hd (by rw [hjj]; rfl)
    have hQ1 : InvA { jobs := setJob q.jobs j.job_id j, state := q.state } :=
      invA_setJob hinv j.job_id j rfl (by rw [hr]; exact Nat.zero_le _)
        (fun hm => absurd hm hnp) (fun hm => absurd hm hna)
    have hrec : ∃ jj, lookupJob (setJob q.jobs j.job_id j) j.job_id = some jj ∧
        jj.status = PrintJobStatus.pending ∧ jj.retry_count = 0 :=
      ⟨j, by rw [lookupJob_setJob, if_pos rfl], hs, hr⟩
    by_cases hpr : j.priority > 0
    · have hres : enqueueT q j now =
          { jobs := setJob q.jobs j.job_id j,
            state := { q.state with pending := j.job_id :: q.state.pending } } := by
        simp [enqueueT, PrintQueue.enqueue, hd, hs, hpr]
      rw [hres]
      exact invA_of_components (invA_pending_cons hQ1 j.job_id hrec hnp) rfl rfl rfl
    · have hres : enqueueT q j now =
          { jobs := setJob q.jobs j.job_id j,
            state := { q.state with pending := q.state.pending ++ [j.job_id],
                                    last_modified := now } } := by
        simp [enqueueT, PrintQueue.enqueue, hd, hs, hpr, QueueState.add_job, hnp]
      rw [hres]
      exact invA_of_components (invA_pending_append hQ1 j.job_id hrec hnp) rfl rfl rfl

/-- A failing dispatch iteration preserves agent well-formedness. -/
theorem invA_procFail {q : PrintQueue} (hinv : InvA q) (step : FailStep)
    (msg : String) (now : Nat) :
    InvA (_process_next_job_failing q step msg now) := by
  cases hp : q.state.pending with
  | nil => rw [procFail_empty q step msg now hp]; exact hinv
  | cons h t =>
      obtain ⟨jh, hjh, hst, hrc⟩ := hinv.pending_ok h
        (by rw [hp]; exact List.mem_cons_self h t)
      have hid := hinv.key_ok h jh hjh
      have hna : h ∉ q.state.active := by
        intro hm
        obtain ⟨jj, hjj, hpr⟩ := hinv.active_ok h hm
        rw [hjh, Option.some_inj] at hjj
        rw [← hjj, hst] at hpr
        exact PrintJobStatus.noConfusion hpr
      have hnt : h ∉ t := by
        have hd := hinv.ndp
        rw [hp] at hd
        exact (List.nodup_cons.mp hd).1
      rw [procFail_char hp hjh hid hna step msg now]
      have hQ1 : InvA { q with state := { q.state with pending := t } } := by
        have hq := invA_pending_erase hinv h
        rw [hp, List.erase_cons_head] at hq
        exact hq
      have hQ2 : InvA { jobs := setJob q.jobs h { jh with status := PrintJobStatus.failed, error_message := some msg, retry_count := jh.retry_count + 1 }, state := { q.state with pending := t } } := by
        refine invA_setJob hQ1 h _ (by simp [hid]) ?_
          (fun hm => absurd hm hnt) (fun hm => absurd hm hna)
        show jh.retry_count + 1 ≤ max jh.max_retries 1
        rw [hrc]
        simp
      exact invA_of_components hQ2 rfl rfl rfl

/-- A successful dispatch iteration preserves agent well-formedness. -/
theorem invA_procOk {q : PrintQueue} (hinv : InvA q) (now : Nat) :
    InvA (_process_next_job_ok q now) := by
  cases hp : q.state.pending with
  | nil => rw [procOk_empty q now hp]; exact hinv
  | cons h t =>
      obtain ⟨jh, hjh, hst, hrc⟩ := hinv.pending_ok h
        (by rw [hp]; exact List.mem_cons_self h t)
      have hid := hinv.key_ok h jh hjh
      have hna : h ∉ q.state.active := by
        intro hm
        obtain ⟨jj, hjj, hpr⟩ := hinv.active_ok h hm
        rw [hjh, Option.some_inj] at hjj
        rw [← hjj, hst] at hpr
        exact PrintJobStatus.noConfusion hpr
      have hnt : h ∉ t := by
        have hd := hinv.ndp
        rw [hp] at hd
        exact (List.nodup_cons.mp hd).1
      rw [procOk_char hp hjh hid now]
      have hQ1 : InvA { q with state := { q.state with pending := t } } := by
        have hq := invA_pending_erase hinv h
        rw [hp, List.erase_cons_head] at hq
        exact hq
      have hQ2 : InvA { jobs := setJob q.jobs h { jh with status := PrintJobStatus.printing, started_at := some now }, state := { q.state with pending := t } } := by
        refine invA_setJob hQ1 h _ (by simp [hid]) ?_
          (fun hm => absurd hm hnt) (fun hm => absurd hm hna)
        show jh.retry_count ≤ max jh.max_retries 1
        exact hinv.rc_bound h jh hjh
      have hQ3 : InvA { jobs := setJob q.jobs h { jh with status := PrintJobStatus.printing, started_at := some now }, state := { q.state with pending := t, active := q.state.active ++ [h] } } := by
        have hq := invA_active_append hQ2 h
          ⟨_, by rw [lookupJob_setJob, if_pos rfl], rfl⟩ hna
        exact invA_of_components hq rfl rfl rfl
      exact invA_of_components hQ3 rfl rfl rfl


/-- A monitoring step preserves agent well-formedness. -/
theorem invA_monitor {q : PrintQueue} (hinv : InvA q) (id : String)
    (dm di : Bool) (p l tt : Option Nat) (now : Nat) :
    InvA (_monitor_job q id dm di p l tt now) := by
  cases hj : lookupJob q.jobs id with
  | none =>
      have hq : _monitor_job q id dm di p l tt now = q := by
        simp [_monitor_job, hj]
      rw [hq]; exact hinv
  | some j =>
      by_cases hstp : j.status = PrintJobStatus.printing
      · cases dm with
        | false =>
            have hq : _monitor_job q id false di p l tt now = q := by
              simp [_monitor_job, hj, hstp]
            rw [hq]; exact hinv
        | true =>
            have hid := hinv.key_ok id j hj
            have hnp : id ∉ q.state.pending := by
              intro hm
              obtain ⟨jj, hjj, hpp, _⟩ := hinv.pending_ok id hm
              rw [hj, Option.some_inj] at hjj
              rw [← hjj, hstp] at hpp
              exact PrintJobStatus.noConfusion hpp
            have hrcb := hinv.rc_bound id j hj
            have hmain : ∃ jOut : PrintJob, jOut.job_id = id ∧
                jOut.retry_count = j.retry_count ∧
                jOut.max_retries = j.max_retries ∧
                (_monitor_job q id true di p l tt now).jobs =
                  setJob q.jobs id jOut ∧
                (_monitor_job q id true di p l tt now).state.pending =
                  q.state.pending ∧
                ((_monitor_job q id true di p l tt now).state.active =
                    q.state.active ∧ jOut.status = PrintJobStatus.printing ∨
                  (_monitor_job q id true di p l tt now).state.active =
                    q.state.active.erase id) := by
              cases di with
              | false =>
                  refine ⟨{ j with progress := p.getD 0, current_layer := l, total_layers := tt }, hid, rfl, rfl, ?_, ?_, Or.inl ⟨?_, hstp⟩⟩ <;>
                    simp [_monitor_job, hj, hstp, updateT, PrintQueue.update_job,
                      lookupJob_setJob, hid]
              | true =>
                  by_cases hple : 99 ≤ (p.getD 0 : Nat)
                  · cases hsa : j.started_at with
                    | none =>
                        by_cases hma : id ∈ q.state.active
                        · refine ⟨{ j with progress := p.getD 0, current_layer := l, total_layers := tt, status := PrintJobStatus.completed, completed_at := some now }, hid, rfl, rfl, ?_, ?_, Or.inr ?_⟩ <;>
                            simp [_monitor_job, hj, hstp, updateT,
                              PrintQueue.update_job, lookupJob_setJob, hid, hple,
                              _handle_job_completion, hsa, setJob_setJob,
                              PrintQueue.mark_completed,
                              QueueState.move_to_completed, hma]
                        · refine ⟨{ j with progress := p.getD 0, current_layer := l, total_layers := tt, status := PrintJobStatus.completed, completed_at := some now }, hid, rfl, rfl, ?_, ?_, Or.inr ?_⟩
                          · simp [_monitor_job, hj, hstp, updateT, PrintQueue.update_job, lookupJob_setJob, hid, hple, _handle_job_completion, hsa, setJob_setJob, PrintQueue.mark_completed, QueueState.move_to_completed, hma]
                          · simp [_monitor_job, hj, hstp, updateT, PrintQueue.update_job, lookupJob_setJob, hid, hple, _handle_job_completion, hsa, setJob_setJob, PrintQueue.mark_completed, QueueState.move_to_completed, hma]
                          · rw [List.erase_of_not_mem hma]
                            simp [_monitor_job, hj, hstp, updateT, PrintQueue.update_job, lookupJob_setJob, hid, hple, _handle_job_completion, hsa, setJob_setJob, PrintQueue.mark_completed, QueueState.move_to_completed, hma]
                    | some st =>
                        by_cases hma : id ∈ q.state.active
                        · refine ⟨{ j with progress := p.getD 0, current_layer := l, total_layers := tt, status := PrintJobStatus.completed, completed_at := some now, actual_duration_seconds := some (now - st) }, hid, rfl, rfl, ?_, ?_, Or.inr ?_⟩ <;>
                            simp [_monitor_job, hj, hstp, updateT,
                              PrintQueue.update_job, lookupJob_setJob, hid, hple,
                              _handle_job_completion, hsa, setJob_setJob,
                              PrintQueue.mark_completed,
                              QueueState.move_to_completed, hma]
                        · refine ⟨{ j with progress := p.getD 0, current_layer := l, total_layers := tt, status := PrintJobStatus.completed, completed_at := some now, actual_duration_seconds := some (now - st) }, hid, rfl, rfl, ?_, ?_, Or.inr ?_⟩
                          · simp [_monitor_job, hj, hstp, updateT, PrintQueue.update_job, lookupJob_setJob, hid, hple, _handle_job_completion, hsa, setJob_setJob, PrintQueue.mark_completed, QueueState.move_to_completed, hma]
                          · simp [_monitor_job, hj, hstp, updateT, PrintQueue.update_job, lookupJob_setJob, hid, hple, _handle_job_completion, hsa, setJob_setJob, PrintQueue.mark_completed, QueueState.move_to_completed, hma]
                          · rw [List.erase_of_not_mem hma]
                            simp [_monitor_job, hj, hstp, updateT, PrintQueue.update_job, lookupJob_setJob, hid, hple, _handle_job_completion, hsa, setJob_setJob, PrintQueue.mark_completed, QueueState.move_to_completed, hma]
                  · refine ⟨{ j with progress := p.getD 0, current_layer := l, total_layers := tt }, hid, rfl, rfl, ?_, ?_, Or.inl ⟨?_, hstp⟩⟩ <;>
                      simp [_monitor_job, hj, hstp, updateT, PrintQueue.update_job,
                        lookupJob_setJob, hid, hple]
            obtain ⟨jOut, hkey, hrceq, hmx, hjobs, hpend, hact⟩ := hmain
            rcases hact with ⟨hact, hstOut⟩ | hact
            · exact invA_of_components
                (invA_setJob hinv id jOut hkey (by rw [hrceq, hmx]; exact hrcb)
                  (fun hm => absurd hm hnp) (fun _ => hstOut)) hjobs hpend hact
            · exact invA_of_components
                (invA_setJob (invA_active_erase hinv id) id jOut hkey
                  (by rw [hrceq, hmx]; exact hrcb)
                  (fun hm => absurd hm hnp)
                  (fun hm =>
                    absurd ((List.Nodup.mem_erase_iff hinv.nda).mp hm).1 (by simp)))
                hjobs hpend hact
      · have hq : _monitor_job q id dm di p l tt now = q := by
          simp [_monitor_job, hj, hstp]
        rw [hq]; exact hinv


/-- A cancellation preserves agent well-formedness. -/
theorem invA_cancel {q : PrintQueue} (hinv : InvA q) (dev : DeviceCtx)
    (id : String) (now : Nat) : InvA (cancel_job q dev id now).2 := by
  cases hj : lookupJob q.jobs id with
  | none =>
      have hq : (cancel_job q dev id now).2 = q := by simp [cancel_job, hj]
      rw [hq]; exact hinv
  | some j =>
      by_cases hterm : j.is_terminal = true
      · have hq : (cancel_job q dev id now).2 = q := by
          simp [cancel_job, hj, hterm]
        rw [hq]; exact hinv
      · have hid := hinv.key_ok id j hj
        have hrcb := hinv.rc_bound id j hj
        have hmsg : ¬ (("Cancelled by user" : String) = "") := by decide
        by_cases hma : id ∈ q.state.active
        · have hnp : id ∉ q.state.pending := by
            intro hm
            obtain ⟨jj, hjj, hpp, _⟩ := hinv.pending_ok id hm
            obtain ⟨jj2, hjj2, hpr⟩ := hinv.active_ok id hma
            rw [hj, Option.some_inj] at hjj hjj2
            rw [← hjj] at hpp
            rw [← hjj2, hpp] at hpr
            exact PrintJobStatus.noConfusion hpr
          have hcomp : (cancel_job q dev id now).2.jobs =
              setJob q.jobs id { j with status := PrintJobStatus.failed, error_message := some "Cancelled by user" } ∧
              (cancel_job q dev id now).2.state.pending = q.state.pending ∧
              (cancel_job q dev id now).2.state.active = q.state.active.erase id := by
            by_cases hf : id ∈ q.state.failed <;>
              refine ⟨?_, ?_, ?_⟩ <;>
                simp [cancel_job, hj, hterm, updateT, PrintQueue.update_job,
                  lookupJob_setJob, hid, PrintQueue.mark_failed, setJob_setJob,
                  QueueState.move_to_failed, hma, hf, hmsg]
          exact invA_of_components
            (invA_setJob (invA_active_erase hinv id) id ({ j with status := PrintJobStatus.failed, error_message := some "Cancelled by user" }) (by simp [hid])
              hrcb (fun hm => absurd hm hnp)
              (fun hm =>
                absurd ((List.Nodup.mem_erase_iff hinv.nda).mp hm).1 (by simp)))
            hcomp.1 hcomp.2.1 hcomp.2.2
        · by_cases hmp : id ∈ q.state.pending
          · have hcomp : (cancel_job q dev id now).2.jobs =
                setJob q.jobs id { j with status := PrintJobStatus.failed, error_message := some "Cancelled by user" } ∧
                (cancel_job q dev id now).2.state.pending = q.state.pending.erase id ∧
                (cancel_job q dev id now).2.state.active = q.state.active := by
              by_cases hf : id ∈ q.state.failed <;>
                refine ⟨?_, ?_, ?_⟩ <;>
                  simp [cancel_job, hj, hterm, updateT, PrintQueue.update_job,
                    lookupJob_setJob, hid, PrintQueue.mark_failed, setJob_setJob,
                    QueueState.move_to_failed, hma, hmp, hf, hmsg]
            exact invA_of_components
              (invA_setJob (invA_pending_erase hinv id) id ({ j with status := PrintJobStatus.failed, error_message := some "Cancelled by user" }) (by simp [hid])
                hrcb
                (fun hm =>
                  absurd ((List.Nodup.mem_erase_iff hinv.ndp).mp hm).1 (by simp))
                (fun hm => absurd hm hma))
              hcomp.1 hcomp.2.1 hcomp.2.2
          · have hcomp : (cancel_job q dev id now).2.jobs =
                setJob q.jobs id { j with status := PrintJobStatus.failed, error_message := some "Cancelled by user" } ∧
                (cancel_job q dev id now).2.state.pending = q.state.pending ∧
                (cancel_job q dev id now).2.state.active = q.state.active := by
              by_cases hf : id ∈ q.state.failed <;>
                refine ⟨?_, ?_, ?_⟩ <;>
                  simp [cancel_job, hj, hterm, updateT, PrintQueue.update_job,
                    lookupJob_setJob, hid, PrintQueue.mark_failed, setJob_setJob,
                    QueueState.move_to_failed, hma, hmp, hf, hmsg]
            exact invA_of_components
              (invA_setJob hinv id ({ j with status := PrintJobStatus.failed, error_message := some "Cancelled by user" }) (by simp [hid]) hrcb
                (fun hm => absurd hm hmp) (fun hm => absurd hm hma))
              hcomp.1 hcomp.2.1 hcomp.2.2


/-- A monitoring step for one id never changes another id's record. -/
theorem monitor_other_lookup {q : PrintQueue} (hinv : InvA q) (id2 : String)
    (dm di : Bool) (p l tt : Option Nat) (now : Nat) (id : String)
    (hne : id ≠ id2) :
    lookupJob (_monitor_job q id2 dm di p l tt now).jobs id =
      lookupJob q.jobs id := by
  cases hj2 : lookupJob q.jobs id2 with
  | none => simp [_monitor_job, hj2]
  | some j2 =>
      have hid2 := hinv.key_ok id2 j2 hj2
      by_cases hst2 : j2.status = PrintJobStatus.printing
      · cases dm with
        | false => simp [_monitor_job, hj2, hst2]
        | true =>
            cases di with
            | false =>
                simp [_monitor_job, hj2, hst2, updateT, PrintQueue.update_job,
                  lookupJob_setJob, hid2, hne]
            | true =>
                by_cases hple : 99 ≤ (p.getD 0 : Nat)
                · cases hsa : j2.started_at <;>
                    by_cases hma : id2 ∈ q.state.active <;>
                      simp [_monitor_job, hj2, hst2, updateT,
                        PrintQueue.update_job, lookupJob_setJob, hid2, hple,
                        _handle_job_completion, hsa, setJob_setJob,
                        PrintQueue.mark_completed, QueueState.move_to_completed,
                        hma, hne]
                · simp [_monitor_job, hj2, hst2, updateT, PrintQueue.update_job,
                    lookupJob_setJob, hid2, hple, hne]
      · simp [_monitor_job, hj2, hst2]

/-- Cancelling one id never changes another id's record. -/
theorem cancel_other_lookup {q : PrintQueue} (hinv : InvA q) (dev : DeviceCtx)
    (id2 : String) (now : Nat) (id : String) (hne : id ≠ id2) :
    lookupJob (cancel_job q dev id2 now).2.jobs id = lookupJob q.jobs id := by
  cases hj2 : lookupJob q.jobs id2 with
  | none => simp [cancel_job, hj2]
  | some j2 =>
      have hid2 := hinv.key_ok id2 j2 hj2
      by_cases hterm : j2.is_terminal = true
      · simp [cancel_job, hj2, hterm]
      · have hmsg : ¬ (("Cancelled by user" : String) = "") := by decide
        by_cases hma : id2 ∈ q.state.active <;>
          by_cases hmp : id2 ∈ q.state.pending <;>
            by_cases hf : id2 ∈ q.state.failed <;>
              simp [cancel_job, hj2, hterm, updateT, PrintQueue.update_job,
                lookupJob_setJob, hid2, PrintQueue.mark_failed, setJob_setJob,
                QueueState.move_to_failed, hma, hmp, hf, hmsg, hne]

/-- A single agent step keeps a FAILED record FAILED. -/
theorem failed_stays_step {q q' : PrintQueue} (hinv : InvA q)
    (hstep : AStep q q') {id : String} {j : PrintJob}
    (hj : lookupJob q.jobs id = some j)
    (hf : j.status = PrintJobStatus.failed) :
    ∃ j', lookupJob q'.jobs id = some j' ∧
      j'.status = PrintJobStatus.failed := by
  cases hstep with
  | submit j2 now hs hr =>
      by_cases hd : (lookupJob q.jobs j2.job_id).isSome = true
      · have hq : enqueueT q j2 now = q := by
          simp [enqueueT, PrintQueue.enqueue, hd]
        rw [hq]; exact ⟨j, hj, hf⟩
      · have hne : id ≠ j2.job_id := fun he => hd (by rw [← he, hj]; rfl)
        obtain ⟨hjobs, _⟩ := enqueueT_fresh_shape q j2 now hd
        exact ⟨j, by rw [hjobs, lookupJob_setJob, if_neg hne]; exact hj, hf⟩
  | procFail step msg now =>
      cases hp : q.state.pending with
      | nil => rw [procFail_empty q step msg now hp]; exact ⟨j, hj, hf⟩
      | cons h t =>
          obtain ⟨jh, hjh, hst, hrc⟩ := hinv.pending_ok h
            (by rw [hp]; exact List.mem_cons_self h t)
          have hid := hinv.key_ok h jh hjh
          have hna : h ∉ q.state.active := by
            intro hm
            obtain ⟨jj, hjj, hpr⟩ := hinv.active_ok h hm
            rw [hjh, Option.some_inj] at hjj
            rw [← hjj, hst] at hpr
            exact PrintJobStatus.noConfusion hpr
          have hne : id ≠ h := by
            intro he
            subst he
            rw [hjh, Option.some_inj] at hj
            rw [← hj, hst] at hf
            exact PrintJobStatus.noConfusion hf
          rw [procFail_char hp hjh hid hna step msg now]
          exact ⟨j, by rw [lookupJob_setJob, if_neg hne]; exact hj, hf⟩
  | procOk now =>
      cases hp : q.state.pending with
      | nil => rw [procOk_empty q now hp]; exact ⟨j, hj, hf⟩
      | cons h t =>
          obtain ⟨jh, hjh, hst, hrc⟩ := hinv.pending_ok h
            (by rw [hp]; exact List.mem_cons_self h t)
          have hid := hinv.key_ok h jh hjh
          have hne : id ≠ h := by
            intro he
            subst he
            rw [hjh, Option.some_inj] at hj
            rw [← hj, hst] at hf
            exact PrintJobStatus.noConfusion hf
          rw [procOk_char hp hjh hid now]
          exact ⟨j, by rw [lookupJob_setJob, if_neg hne]; exact hj, hf⟩
  | monitor id2 dm di p l tt now =>
      by_cases he : id = id2
      · subst he
        have hnpr : ¬ (j.status = PrintJobStatus.printing) := by
          rw [hf]; exact fun hc => PrintJobStatus.noConfusion hc
        have hq : _monitor_job q id dm di p l tt now = q := by
          simp [_monitor_job, hj, hnpr]
        rw [hq]; exact ⟨j, hj, hf⟩
      · exact ⟨j, by
          rw [monitor_other_lookup hinv id2 dm di p l tt now id he]; exact hj, hf⟩
  | cancel dev id2 now =>
      by_cases he : id = id2
      · subst he
        have hterm : j.is_terminal = true := by
          simp [PrintJob.is_terminal, hf]
        have hq : (cancel_job q dev id now).2 = q := by
          simp [cancel_job, hj, hterm]
        rw [hq]; exact ⟨j, hj, hf⟩
      · exact ⟨j, by rw [cancel_other_lookup hinv dev id2 now id he]; exact hj, hf⟩

/-- One agent step preserves agent well-formedness. -/
theorem invA_step {q q' : PrintQueue} (hinv : InvA q) (hstep : AStep q q') :
    InvA q' := by
  cases hstep with
  | submit j now hs hr => exact invA_submit hinv j now hs hr
  | procFail step msg now => exact invA_procFail hinv step msg now
  | procOk now => exact invA_procOk hinv now
  | monitor id dm di p l tt now => exact invA_monitor hinv id dm di p l tt now
  | cancel dev id now => exact invA_cancel hinv dev id now

/-- The empty queue is agent-well-formed. -/
theorem invA_empty : InvA emptyQueue := by
  constructor <;> intros <;> simp_all [emptyQueue, lookupJob]

/-- Agent well-formedness is preserved along any agent-step sequence. -/
theorem invA_many {q q' : PrintQueue} (hinv : InvA q)
    (hsteps : Relation.ReflTransGen AStep q q') : InvA q' := by
  induction hsteps with
  | refl => exact hinv
  | tail _ hstep ih => exact invA_step ih hstep

/-- Every agent-reachable queue is agent-well-formed. -/
theorem invA_reach {q : PrintQueue} (hq : ReachA q) : InvA q :=
  invA_many invA_empty hq

/-- A FAILED record stays FAILED along any agent-step sequence. -/
theorem failed_stays_many {q q' : PrintQueue} (hinv : InvA q)
    (hsteps : Relation.ReflTransGen AStep q q') {id : String} {j : PrintJob}
    (hj : lookupJob q.jobs id = some j)
    (hf : j.status = PrintJobStatus.failed) :
    ∃ j', lookupJob q'.jobs id = some j' ∧
      j'.status = PrintJobStatus.failed := by
  induction hsteps with
  | refl => exact ⟨j, hj, hf⟩
  | tail hs hstep ih =>
      obtain ⟨j1, hj1, hf1⟩ := ih
      exact failed_stays_step (invA_many hinv hs) hstep hj1 hf1

/-- C4 counterexample: a job enqueued with `max_retries = 0` that fails once
reaches `retry_count = 1 > 0 = max_retries`, so `retry_count ≤ max_retries`
does not hold for `max_retries = 0`. -/
theorem retry_count_exceeds_zero_max_retries :
    ReachA c4Queue ∧
      lookupJob c4Queue.jobs "jobZero" = some jobZeroFailed ∧
      jobZeroFailed.max_retries = 0 ∧
      ¬ (jobZeroFailed.retry_count ≤ jobZeroFailed.max_retries) := by
  refine ⟨?_, by decide, by decide, by decide⟩
  exact Relation.ReflTransGen.tail
    (Relation.ReflTransGen.single (AStep.submit emptyQueue jobZero 1 rfl rfl))
    (AStep.procFail (enqueueT emptyQueue jobZero 1) FailStep.atUpload "boom" 2)

/-- C4 amended: in every agent-reachable queue, every stored record satisfies
`retry_count ≤ max(max_retries, 1)` — the bound can exceed `max_retries` only
when `max_retries = 0`, and then by exactly one, because the failure handler
increments the count once and always lands in the terminal FAILED state; and
once a record is FAILED it never returns to PENDING: it stays FAILED under
every further agent step. -/
theorem retry_count_bounded_and_failed_terminal (q : PrintQueue)
    (hq : ReachA q) :
    (∀ id j, lookupJob q.jobs id = some j →
        j.retry_count ≤ max j.max_retries 1) ∧
      (∀ q' id j, Relation.ReflTransGen AStep q q' →
        lookupJob q.jobs id = some j → j.status = PrintJobStatus.failed →
        ∃ j', lookupJob q'.jobs id = some j' ∧
          j'.status = PrintJobStatus.failed) := by
  have hinv := invA_reach hq
  exact ⟨hinv.rc_bound,
    fun q' id j hs hj hf => failed_stays_many hinv hs hj hf⟩

/-- C4 amended witness: applied to the concrete reachable queue holding the
once-failed zero-retry job. -/
theorem retry_count_bounded_witness :
    ReachA c4Queue ∧
      ((∀ id j, lookupJob c4Queue.jobs id = some j →
          j.retry_count ≤ max j.max_retries 1) ∧
        (∀ q' id j, Relation.ReflTransGen AStep c4Queue q' →
          lookupJob c4Queue.jobs id = some j →
          j.status = PrintJobStatus.failed →
          ∃ j', lookupJob q'.jobs id = some j' ∧
            j'.status = PrintJobStatus.failed)) := by
  have hreach : ReachA c4Queue :=
    Relation.ReflTransGen.tail
      (Relation.ReflTransGen.single (AStep.submit emptyQueue jobZero 1 rfl rfl))
      (AStep.procFail (enqueueT emptyQueue jobZero 1) FailStep.atUpload "boom" 2)
  exact ⟨hreach, retry_count_bounded_and_failed_terminal c4Queue hreach⟩

end LeSing
